import Mathlib

/-!
# Peloton index

Shallow embedding of `src/index/index.cpp` (`Index::Compare`,
`Index::ConstructLowerBoundTuple`, the constructor of `IndexMetadata`,
`Index::GetInfo`, the tuple count and the dirty flag) and of
`DDLDatabase::CreateDatabase` and `DropDatabase`
(`src/backend/bridge/ddl/ddl_database.cpp`), a model of the ordered index that
`test/index/index_test.cpp` exercises, and theorems about them.

Conventions of the embedding:

* `std::vector` and tuples are lists; a read past the end of a vector or of a
  tuple (undefined behaviour in C++) is the explicit failure
  `IndexError.OutOfRange`;
* a thrown `IndexException` is the failure `IndexError.IndexException`;
* `Value`, its `Compare`, `InList` and `GetMinValue` live in `common/value.h`,
  which is not part of the sources at hand: they are a parameter (`ValueOps`)
  of every definition, and every theorem holds for each implementation of them;
* the index classes (insert, delete and scans) are not part of the sources
  either: `OrderedIndex` is modelled from the words of the spec (§3, §4.3);
* `size_t` is 64 bits wide: the tuple count is a natural number below 2^64 and
  `+=`, `-=` wrap at 2^64.
-/

namespace peloton

/-! ## Types of `common/types.h` and `common/value.h` -/

/-- Modelled from the spec: the column type tags (`ValueType` of
`common/types.h`, absent from the sources). The spec lists signed integers of
several widths, floating point, boolean, strings and timestamp; the sources use
`VALUE_TYPE_INTEGER`, `VALUE_TYPE_VARCHAR` and `VALUE_TYPE_DOUBLE`. -/
inductive ValueType
  | VALUE_TYPE_TINYINT
  | VALUE_TYPE_SMALLINT
  | VALUE_TYPE_INTEGER
  | VALUE_TYPE_BIGINT
  | VALUE_TYPE_DOUBLE
  | VALUE_TYPE_BOOLEAN
  | VALUE_TYPE_VARCHAR
  | VALUE_TYPE_TIMESTAMP
  deriving DecidableEq, Repr

/-- Modelled from the spec: the integer types among the column types (§3:
"signed integers of several widths"). -/
def ValueType.isIntegerType : ValueType → Bool
  | .VALUE_TYPE_TINYINT => true
  | .VALUE_TYPE_SMALLINT => true
  | .VALUE_TYPE_INTEGER => true
  | .VALUE_TYPE_BIGINT => true
  | _ => false

/-- Modelled from the spec: the comparison operators (`ExpressionType` of
`common/types.h`, absent from the sources). The seven operators named in
`Index::Compare` are constructors of their own; `other code` is any further
enumerator, `code` being its numeric value (what `std::to_string` prints). -/
inductive ExpressionType
  | EXPRESSION_TYPE_COMPARE_EQUAL
  | EXPRESSION_TYPE_COMPARE_NOTEQUAL
  | EXPRESSION_TYPE_COMPARE_LESSTHAN
  | EXPRESSION_TYPE_COMPARE_GREATERTHAN
  | EXPRESSION_TYPE_COMPARE_LESSTHANOREQUALTO
  | EXPRESSION_TYPE_COMPARE_GREATERTHANOREQUALTO
  | EXPRESSION_TYPE_COMPARE_IN
  | other (code : Int)
  deriving DecidableEq, Repr

/-- Modelled from the spec: the outcome of a comparison, the `int` that
`Value::Compare` returns and `Index::Compare` stores in `diff`. The four
constants `VALUE_COMPARE_*` that the code tests for (`common/value.h`, absent
from the sources) are constructors of their own (the spec calls them `LT`,
`EQ`, `GT`, `INCOMPARABLE`); `other n` is any further `int`. -/
inductive CompareResult
  | VALUE_COMPARE_LESSTHAN
  | VALUE_COMPARE_EQUAL
  | VALUE_COMPARE_GREATERTHAN
  | VALUE_COMPARE_NO_EQUAL
  | other (n : Int)
  deriving DecidableEq, Repr

/-- The operations of `Value` that the index code calls: `lhs.Compare(rhs)`,
`lhs.InList(rhs)` and the static `Value::GetMinValue(type)`. Their code is not
part of the sources, so they are a parameter. -/
structure ValueOps (V : Type) where
  Compare : V → V → CompareResult
  InList : V → V → Bool
  GetMinValue : ValueType → V

/-- The failures of the index code. `IndexException expr_type` is the thrown
`IndexException("Unsupported expression type : " + std::to_string(expr_type))`;
`OutOfRange` is a read past the end of a vector or of the key tuple. -/
inductive IndexError
  | IndexException (expr_type : ExpressionType)
  | OutOfRange
  deriving DecidableEq, Repr

open ExpressionType CompareResult ValueType

/-- The seven operators that `Index::Compare` knows. -/
def ExpressionType.recognised : ExpressionType → Bool
  | .other _ => false
  | _ => true

/-! ## `Index::Compare` -/

/-- The `if (diff == ...) switch (expr_type)` cascade of `Index::Compare`
(index.cpp lines 148-203) for one predicate: `ok true` is `continue`,
`ok false` is `return false`, `error` is the `throw` of a `default:` branch.
A `diff` that is none of the four constants matches no branch of the cascade,
and the loop goes on to the next predicate. -/
def CompareDispatch (diff : CompareResult) (expr_type : ExpressionType) :
    Except IndexError Bool :=
  match diff with
  | VALUE_COMPARE_EQUAL =>
    match expr_type with
    | EXPRESSION_TYPE_COMPARE_EQUAL
    | EXPRESSION_TYPE_COMPARE_LESSTHANOREQUALTO
    | EXPRESSION_TYPE_COMPARE_GREATERTHANOREQUALTO
    | EXPRESSION_TYPE_COMPARE_IN => .ok true
    | EXPRESSION_TYPE_COMPARE_NOTEQUAL
    | EXPRESSION_TYPE_COMPARE_LESSTHAN
    | EXPRESSION_TYPE_COMPARE_GREATERTHAN => .ok false
    | .other code => .error (.IndexException (.other code))
  | VALUE_COMPARE_LESSTHAN =>
    match expr_type with
    | EXPRESSION_TYPE_COMPARE_NOTEQUAL
    | EXPRESSION_TYPE_COMPARE_LESSTHAN
    | EXPRESSION_TYPE_COMPARE_LESSTHANOREQUALTO => .ok true
    | EXPRESSION_TYPE_COMPARE_EQUAL
    | EXPRESSION_TYPE_COMPARE_GREATERTHAN
    | EXPRESSION_TYPE_COMPARE_GREATERTHANOREQUALTO
    | EXPRESSION_TYPE_COMPARE_IN => .ok false
    | .other code => .error (.IndexException (.other code))
  | VALUE_COMPARE_GREATERTHAN =>
    match expr_type with
    | EXPRESSION_TYPE_COMPARE_NOTEQUAL
    | EXPRESSION_TYPE_COMPARE_GREATERTHAN
    | EXPRESSION_TYPE_COMPARE_GREATERTHANOREQUALTO => .ok true
    | EXPRESSION_TYPE_COMPARE_EQUAL
    | EXPRESSION_TYPE_COMPARE_LESSTHAN
    | EXPRESSION_TYPE_COMPARE_LESSTHANOREQUALTO
    | EXPRESSION_TYPE_COMPARE_IN => .ok false
    | .other code => .error (.IndexException (.other code))
  | VALUE_COMPARE_NO_EQUAL => .ok false
  | .other _ => .ok true

/-- The `diff` of one predicate (index.cpp lines 135-144): for `IN` it comes
from `lhs.InList(rhs)`, for every other operator from `lhs.Compare(rhs)`. -/
def CompareDiff {V : Type} (ops : ValueOps V) (lhs rhs : V)
    (expr_type : ExpressionType) : CompareResult :=
  if expr_type = EXPRESSION_TYPE_COMPARE_IN then
    if ops.InList lhs rhs = true then VALUE_COMPARE_EQUAL else VALUE_COMPARE_NO_EQUAL
  else
    ops.Compare lhs rhs

/-- The loop of `Index::Compare` over `key_column_ids` (index.cpp lines
129-204). `key_column_itr` is the position in the list: the code starts it at
`-1` and increments it first thing in the body, so the first predicate reads
position 0. -/
def CompareLoop {V : Type} (ops : ValueOps V) (index_key : List V)
    (expr_types : List ExpressionType) (values : List V) :
    List Nat → Nat → Except IndexError Bool
  | [], _ => .ok true
  | column_itr :: rest, key_column_itr =>
    match values[key_column_itr]?, index_key[column_itr]?, expr_types[key_column_itr]? with
    | some rhs, some lhs, some expr_type =>
      match CompareDispatch (CompareDiff ops lhs rhs expr_type) expr_type with
      | .ok true => CompareLoop ops index_key expr_types values rest (key_column_itr + 1)
      | .ok false => .ok false
      | .error e => .error e
    | _, _, _ => .error .OutOfRange

/-- `Index::Compare(index_key, key_column_ids, expr_types, values)`
(index.cpp lines 103-207). -/
def Compare {V : Type} (ops : ValueOps V) (index_key : List V)
    (key_column_ids : List Nat) (expr_types : List ExpressionType)
    (values : List V) : Except IndexError Bool :=
  CompareLoop ops index_key expr_types values key_column_ids 0

/-! ## `Index::ConstructLowerBoundTuple` -/

/-- A `storage::Tuple`: its schema (the column types) and one value per
column. -/
structure Tuple (V : Type) where
  schema : List ValueType
  data : List V
  wf : data.length = schema.length

/-- `Tuple::SetValue(column, value, pool)`. -/
def Tuple.SetValue {V : Type} (t : Tuple V) (column : Nat) (value : V) :
    Tuple V :=
  ⟨t.schema, t.data.set column value, by simp [t.wf]⟩

/-- One round of the loop of `Index::ConstructLowerBoundTuple` (index.cpp
lines 235-280), for the key column `column_itr`; the state is the key under
construction and `all_constraints_equal`. `List.indexOf` is `std::find`
followed by `std::distance`: the position of the first occurrence, or the
length of the list (`end()`) when there is none. -/
def LowerBoundStep {V : Type} (ops : ValueOps V) (values : List V)
    (key_column_ids : List Nat) (expr_types : List ExpressionType)
    (st : Tuple V × Bool) (column_itr : Nat) :
    Except IndexError (Tuple V × Bool) :=
  let offset := key_column_ids.indexOf column_itr
  let fillMin (all_constraints_equal : Bool) : Except IndexError (Tuple V × Bool) :=
    match st.1.schema[column_itr]? with
    | some value_type =>
      .ok (st.1.SetValue column_itr (ops.GetMinValue value_type), all_constraints_equal)
    | none => .error .OutOfRange
  if offset < key_column_ids.length then
    match expr_types[offset]? with
    | some expr_type =>
      if expr_type = EXPRESSION_TYPE_COMPARE_EQUAL then
        match values[offset]? with
        | some value => .ok (st.1.SetValue column_itr value, st.2)
        | none => .error .OutOfRange
      else
        fillMin false
    | none => .error .OutOfRange
  else
    fillMin st.2

/-- `Index::ConstructLowerBoundTuple(index_key, values, key_column_ids,
expr_types)` (index.cpp lines 223-290): the filled key and the returned
flag. -/
def ConstructLowerBoundTuple {V : Type} (ops : ValueOps V)
    (index_key : Tuple V) (values : List V) (key_column_ids : List Nat)
    (expr_types : List ExpressionType) : Except IndexError (Tuple V × Bool) :=
  let col_count := index_key.schema.length
  match (List.range col_count).foldlM
      (LowerBoundStep ops values key_column_ids expr_types) (index_key, true) with
  | .ok (key, all_constraints_equal) =>
    .ok (key, if col_count > values.length then false else all_constraints_equal)
  | .error e => .error e

/-! ## Predicate lists -/

/-- One entry of a predicate list: `key_column_ids[i]`, `expr_types[i]` and
`values[i]` for one position `i` of the three parallel vectors. -/
structure Predicate (V : Type) where
  column_id : Nat
  expr_type : ExpressionType
  value : V

/-- The vector `key_column_ids` of a predicate list. -/
def keyColumnIds {V : Type} (preds : List (Predicate V)) : List Nat :=
  preds.map (fun p => p.column_id)

/-- The vector `expr_types` of a predicate list. -/
def exprTypes {V : Type} (preds : List (Predicate V)) : List ExpressionType :=
  preds.map (fun p => p.expr_type)

/-- The vector `values` of a predicate list. -/
def predValues {V : Type} (preds : List (Predicate V)) : List V :=
  preds.map (fun p => p.value)

/-- `Index::Compare` called on the three vectors of a predicate list. -/
def matchesPreds {V : Type} (ops : ValueOps V) (index_key : List V)
    (preds : List (Predicate V)) : Except IndexError Bool :=
  Compare ops index_key (keyColumnIds preds) (exprTypes preds) (predValues preds)

/-- `Index::ConstructLowerBoundTuple` called on the three vectors of a
predicate list. -/
def lowerBoundPreds {V : Type} (ops : ValueOps V) (index_key : Tuple V)
    (preds : List (Predicate V)) : Except IndexError (Tuple V × Bool) :=
  ConstructLowerBoundTuple ops index_key (predValues preds) (keyColumnIds preds)
    (exprTypes preds)

/-! ## Vocabulary of the statements -/

/-- The first predicate of the list on key column `c`, if there is one. -/
def firstPredicate {V : Type} (preds : List (Predicate V)) (c : Nat) : Option (Predicate V) :=
  preds.find? (fun p => decide (p.column_id = c))

/-- What the loop of `Index::ConstructLowerBoundTuple` writes into column `c`
of type `t`. -/
def columnValue {V : Type} (ops : ValueOps V) (preds : List (Predicate V)) (t : ValueType)
    (c : Nat) : V :=
  match firstPredicate preds c with
  | some p => if p.expr_type = EXPRESSION_TYPE_COMPARE_EQUAL then p.value else ops.GetMinValue t
  | none => ops.GetMinValue t

/-- Whether column `c` leaves `all_constraints_equal` as it is. -/
def columnFlag {V : Type} (preds : List (Predicate V)) (c : Nat) : Bool :=
  match firstPredicate preds c with
  | some p => decide (p.expr_type = EXPRESSION_TYPE_COMPARE_EQUAL)
  | none => true

/-- The number of `EQ` predicates of the list on key column `c`. -/
def eqCount {V : Type} (preds : List (Predicate V)) (c : Nat) : Nat :=
  (preds.filter (fun p =>
    decide (p.column_id = c ∧ p.expr_type = EXPRESSION_TYPE_COMPARE_EQUAL))).length

/-- Modelled from the spec: the lexicographic order on keys induced by the
per-column `compare` (§3, "Ordering"); the comparator of the ordered map is not
part of the sources. `keyLessEq ops a b` is `a <= b`. -/
def keyLessEq {V : Type} (ops : ValueOps V) : List V → List V → Bool
  | [], _ => true
  | _ :: _, [] => false
  | a :: as, b :: bs =>
    match ops.Compare a b with
    | VALUE_COMPARE_LESSTHAN => true
    | VALUE_COMPARE_EQUAL => keyLessEq ops as bs
    | _ => false

/-! ## A sample implementation of `Value` -/

/-- Modelled from the spec: a sample of the tagged variant `Value` of
`common/value.h` (absent from the sources): integers of every width and
timestamps carry an `Int`, booleans a `Bool`, floating point values the
rational they denote, strings a `String`; `array` is the list value on the
right-hand side of an `IN` predicate. -/
inductive Value
  | integer (n : Int)
  | boolean (b : Bool)
  | double (x : Rat)
  | varchar (s : String)
  | array (elements : List Int)
  deriving DecidableEq

/-- Three-way comparison of two integers. -/
def compareInt (a b : Int) : CompareResult :=
  if a < b then VALUE_COMPARE_LESSTHAN
  else if a = b then VALUE_COMPARE_EQUAL
  else VALUE_COMPARE_GREATERTHAN

/-- Three-way comparison of two rationals. -/
def compareRat (a b : Rat) : CompareResult :=
  if a < b then VALUE_COMPARE_LESSTHAN
  else if a = b then VALUE_COMPARE_EQUAL
  else VALUE_COMPARE_GREATERTHAN

/-- Three-way lexicographic comparison of two strings, given as the lists of
their character codes. -/
def compareCodes : List Nat → List Nat → CompareResult
  | [], [] => VALUE_COMPARE_EQUAL
  | [], _ :: _ => VALUE_COMPARE_LESSTHAN
  | _ :: _, [] => VALUE_COMPARE_GREATERTHAN
  | a :: as, b :: bs =>
    if a < b then VALUE_COMPARE_LESSTHAN
    else if b < a then VALUE_COMPARE_GREATERTHAN
    else compareCodes as bs

/-- Modelled from the spec: `Value::Compare` of the sample (§4.1): `LT`, `EQ`
or `GT` for two values of one ordered type, `INCOMPARABLE`
(`VALUE_COMPARE_NO_EQUAL`) for every other pair. -/
def Value.Compare : Value → Value → CompareResult
  | .integer a, .integer b => compareInt a b
  | .boolean a, .boolean b => compareInt (if a then 1 else 0) (if b then 1 else 0)
  | .double a, .double b => compareRat a b
  | .varchar a, .varchar b =>
    compareCodes (a.toList.map Char.toNat) (b.toList.map Char.toNat)
  | _, _ => VALUE_COMPARE_NO_EQUAL

/-- Modelled from the spec: `Value::InList` of the sample (§4.1): membership of
an integer in a list value. -/
def Value.InList : Value → Value → Bool
  | .integer a, .array elements => elements.contains a
  | _, _ => false

/-- Modelled from the spec: `Value::GetMinValue` of the sample (§4.1): the
representable minimum of each type. -/
def Value.GetMinValue : ValueType → Value
  | .VALUE_TYPE_TINYINT => .integer (-128)
  | .VALUE_TYPE_SMALLINT => .integer (-32768)
  | .VALUE_TYPE_INTEGER => .integer (-2147483648)
  | .VALUE_TYPE_BIGINT => .integer (-9223372036854775808)
  | .VALUE_TYPE_TIMESTAMP => .integer (-9223372036854775808)
  | .VALUE_TYPE_BOOLEAN => .boolean false
  | .VALUE_TYPE_DOUBLE => .double (-(2 ^ 1024 - 2 ^ 971))
  | .VALUE_TYPE_VARCHAR => .varchar ""

/-- The sample implementation of the operations of `Value`. -/
def sampleOps : ValueOps Value :=
  ⟨Value.Compare, Value.InList, Value.GetMinValue⟩

/-! ## `IndexMetadata` and `Index::GetInfo` -/

/-- Modelled from the spec: the index method tag (`IndexType` of
`common/types.h`, absent from the sources; §3 names a B-tree variant, a Bw-tree
variant and hash). The test names `INDEX_TYPE_BWTREE`. -/
inductive IndexType
  | INDEX_TYPE_BTREE
  | INDEX_TYPE_BWTREE
  | INDEX_TYPE_HASH
  deriving DecidableEq, Repr

/-- Modelled from the spec: the constraint tag (`IndexConstraintType` of
`common/types.h`, absent from the sources; §3: primary, unique, default). -/
inductive IndexConstraintType
  | INDEX_CONSTRAINT_TYPE_DEFAULT
  | INDEX_CONSTRAINT_TYPE_PRIMARY_KEY
  | INDEX_CONSTRAINT_TYPE_UNIQUE
  deriving DecidableEq, Repr

open IndexType IndexConstraintType

/-- The fields of `IndexMetadata` that its constructor sets (index.cpp lines
43-51); a `catalog::Schema` is the list of its column types. -/
structure IndexMetadata where
  index_name : String
  index_oid : Nat
  method_type : IndexType
  index_type : IndexConstraintType
  tuple_schema : List ValueType
  key_schema : List ValueType
  key_attrs : List Nat
  unique_keys : Bool
  ints_only : Bool

/-- The constructor `IndexMetadata::IndexMetadata` (index.cpp lines 35-70):
`ints_only` starts true and the loop over the columns of the key schema sets
it to false at every column whose type is not `VALUE_TYPE_INTEGER`. -/
def IndexMetadata.IndexMetadata (index_name : String) (index_oid : Nat)
    (method_type : IndexType) (index_type : IndexConstraintType)
    (tuple_schema key_schema : List ValueType) (key_attrs : List Nat)
    (unique_keys : Bool) : IndexMetadata :=
  let ints_only := key_schema.foldl
    (fun ints_only key_schema_column_type =>
      if key_schema_column_type ≠ VALUE_TYPE_INTEGER then false else ints_only) true
  ⟨index_name, index_oid, method_type, index_type, tuple_schema, key_schema, key_attrs,
    unique_keys, ints_only⟩

/-- `Index::GetInfo` (index.cpp lines 303-318). `GetTypeName()` of the concrete
index and the rendering `operator<<` of the key schema are not part of the
sources and are parameters; `GetName()` and `HasUniqueKeys()` read the name
and the `unique_keys` flag of the metadata. -/
def Index.GetInfo (metadata : IndexMetadata) (GetTypeName : String)
    (key_schema_info : String) : String :=
  "\t-----------------------------------------------------------\n" ++
  "\tINDEX\n" ++
  GetTypeName ++ "\t(" ++ metadata.index_name ++ ")" ++
  (if metadata.unique_keys = true then " UNIQUE " else " NON-UNIQUE") ++ "\n" ++
  "\tValue schema : " ++ key_schema_info ++
  "\t-----------------------------------------------------------\n"

/-- A string contains another one as a contiguous part. -/
def containsText (s part : String) : Prop :=
  ∃ before after : String, s = before ++ part ++ after

/-! ## The ordered index -/

/-- Modelled from the spec: `ItemPointer` (§3), the pair `(block_id, offset)`
that locates a row; the index compares item pointers for equality only. Its
declaration is not part of the sources. -/
structure ItemPointer where
  block : Nat
  offset : Nat
  deriving DecidableEq, Repr

/-- Modelled from the spec: the ordered map of an index (§3, §4.3). The index
classes behind `IndexFactory::GetInstance` are not part of the sources; only
their test (test/index/index_test.cpp) is. The map is the list of its
`(key, item)` entries in the order of their insertion, with the method tag and
the `unique_keys` flag of its metadata. Keys are equal under the composite
comparator when they are equal; the order of iteration is not modelled. -/
structure OrderedIndex (K : Type) where
  method_type : IndexType
  unique_keys : Bool
  entries : List (K × ItemPointer)

/-- Modelled from the spec: `has_unique_keys()` (§4.3) reports the variant. -/
def OrderedIndex.HasUniqueKeys {K : Type} (index : OrderedIndex K) : Bool :=
  index.unique_keys

/-- Modelled from the spec: `insert(key, item)` (§4.3; `InsertEntry` in the
test), with its success as a boolean. In the unique variant it fails
(`DuplicateKey`) when an entry with an equal key is present and installs the
pair otherwise. In the multi-map variant it always succeeds and the pair is
appended, duplicates (same key, same item) included. -/
def OrderedIndex.InsertEntry {K : Type} [DecidableEq K] (index : OrderedIndex K) (key : K)
    (item : ItemPointer) : OrderedIndex K × Bool :=
  if index.unique_keys = true then
    if index.entries.any (fun e => decide (e.1 = key)) = true then (index, false)
    else (⟨index.method_type, index.unique_keys, index.entries ++ [(key, item)]⟩, true)
  else (⟨index.method_type, index.unique_keys, index.entries ++ [(key, item)]⟩, true)

/-- Modelled from the spec: `delete(key, item)` (§4.3, §3; `DeleteEntry` in the
test) removes at most one entry matching `(key, item)` by key equality and
item-pointer equality, and returns true iff an entry was removed; an entry
with an equal key and another item stays. Which of several matching entries
goes is not said: here it is the first one, and the scans of the statements
count items, so it makes no difference to them. -/
def OrderedIndex.DeleteEntry {K : Type} [DecidableEq K] (index : OrderedIndex K) (key : K)
    (item : ItemPointer) : OrderedIndex K × Bool :=
  (⟨index.method_type, index.unique_keys, index.entries.erase (key, item)⟩,
    decide ((key, item) ∈ index.entries))

/-- Modelled from the spec: `scan_key(key, out)` (§4.3; `ScanKey` in the
test) appends to `out` every item pointer associated with a key equal to
`key`; it has no failure. -/
def OrderedIndex.ScanKey {K : Type} [DecidableEq K] (index : OrderedIndex K) (key : K)
    (out : List ItemPointer) : List ItemPointer :=
  out ++ (index.entries.filter (fun e => decide (e.1 = key))).map (fun e => e.2)

/-- Modelled from the spec: `scan_all(out)` (§4.3; `ScanAllKeys` in the test)
appends every item pointer in the map. -/
def OrderedIndex.ScanAllKeys {K : Type} (index : OrderedIndex K)
    (out : List ItemPointer) : List ItemPointer :=
  out ++ index.entries.map (fun e => e.2)

/-- One call of the index, for sequences of calls. -/
inductive IndexCall (K : Type)
  | InsertEntry (key : K) (item : ItemPointer)
  | DeleteEntry (key : K) (item : ItemPointer)

/-- Whether a call is an `InsertEntry` of the key `key`. -/
def IndexCall.insertsKey {K : Type} [DecidableEq K] (key : K) : IndexCall K → Bool
  | .InsertEntry k _ => decide (k = key)
  | .DeleteEntry _ _ => false

/-- The index after one call (its boolean result dropped). -/
def OrderedIndex.call {K : Type} [DecidableEq K] (index : OrderedIndex K) :
    IndexCall K → OrderedIndex K
  | .InsertEntry key item => (index.InsertEntry key item).1
  | .DeleteEntry key item => (index.DeleteEntry key item).1

/-- The index after a sequence of calls. -/
def OrderedIndex.run {K : Type} [DecidableEq K] (index : OrderedIndex K)
    (calls : List (IndexCall K)) : OrderedIndex K :=
  calls.foldl OrderedIndex.call index

/-- The index after `n` calls `InsertEntry(key, item)`. -/
def OrderedIndex.insertTimes {K : Type} [DecidableEq K] (index : OrderedIndex K) (key : K)
    (item : ItemPointer) : Nat → OrderedIndex K
  | 0 => index
  | n + 1 => ((index.insertTimes key item n).InsertEntry key item).1

/-! ### The workload of test/index/index_test.cpp -/

/-- `BuildIndex(unique_keys)` of the test (lines 45-83), for an index type: an
empty index. -/
def BuildIndex (index_type : IndexType) (unique_keys : Bool) : OrderedIndex (List Value) :=
  ⟨index_type, unique_keys, []⟩

/-- The item pointer `item0(120, 5)` of the test. -/
def item0 : ItemPointer := ⟨120, 5⟩

/-- The item pointer `item1(120, 7)` of the test. -/
def item1 : ItemPointer := ⟨120, 7⟩

/-- The item pointer `item2(123, 19)` of the test. -/
def item2 : ItemPointer := ⟨123, 19⟩

/-- The key `(100, "a")` of the test. -/
def key0 : List Value := [Value.integer 100, Value.varchar "a"]

/-- The key `(100, "b")` of the test. -/
def key1 : List Value := [Value.integer 100, Value.varchar "b"]

/-- The key `(100, "c")` of the test. -/
def key2 : List Value := [Value.integer 100, Value.varchar "c"]

/-- The key `(400, "d")` of the test. -/
def key3 : List Value := [Value.integer 400, Value.varchar "d"]

/-- The key `(500, "e...e")` of the test, with 1000 letters. -/
def key4 : List Value := [Value.integer 500, Value.varchar (String.mk (List.replicate 1000 'e'))]

/-- The key `(1000, "f")` of the test, which is never inserted. -/
def keynonce : List Value := [Value.integer 1000, Value.varchar "f"]

/-- The nine calls of `InsertTest` (test lines 171-181) for scale factor 1. -/
def InsertTest : List (IndexCall (List Value)) :=
  [.InsertEntry key0 item0, .InsertEntry key1 item1, .InsertEntry key1 item2,
   .InsertEntry key1 item1, .InsertEntry key1 item1, .InsertEntry key1 item0,
   .InsertEntry key2 item1, .InsertEntry key3 item1, .InsertEntry key4 item1]

/-- Modelled from the spec: a `storage::Database` (storage/database.h is not
part of the sources; the catalog is outside the spec's scope, §1): the oid it
was created with. -/
structure Database where
  database_oid : Nat
  deriving DecidableEq, Repr

/-- Modelled from the spec: the state of `catalog::Manager` that
`DDLDatabase` reaches through `Manager::GetInstance()` (catalog/manager.h is
not part of the sources; the catalog is outside the spec's scope, §1): the
databases it holds. -/
structure Manager where
  databases : List Database
  deriving DecidableEq, Repr

/-- Modelled from the spec: `Manager::GetDatabaseWithOid`: the database with
this oid, or none (`nullptr`). -/
def Manager.GetDatabaseWithOid (manager : Manager) (database_oid : Nat) : Option Database :=
  manager.databases.find? (fun db => decide (db.database_oid = database_oid))

/-- Modelled from the spec: `Manager::AddDatabase`: the database joins the
ones held. -/
def Manager.AddDatabase (manager : Manager) (db : Database) : Manager :=
  ⟨manager.databases ++ [db]⟩

/-- Modelled from the spec: `Manager::DropDatabaseWithOid`: the database with
this oid, if there is one, is held no longer. -/
def Manager.DropDatabaseWithOid (manager : Manager) (database_oid : Nat) : Manager :=
  ⟨manager.databases.filter (fun db => decide (db.database_oid ≠ database_oid))⟩

/-- `DDLDatabase::CreateDatabase(database_oid)` (ddl_database.cpp lines
85-101): the manager after the call and the returned boolean. The constant
`INVALID_OID` (common/types.h, not part of the sources) is a parameter. -/
def DDLDatabase.CreateDatabase (INVALID_OID : Nat) (manager : Manager) (database_oid : Nat) :
    Manager × Bool :=
  if database_oid = INVALID_OID then (manager, false)
  else
    match manager.GetDatabaseWithOid database_oid with
    | none => (manager.AddDatabase ⟨database_oid⟩, true)
    | some _ => (manager, false)

/-- `DDLDatabase::DropDatabase(database_oid)` (ddl_database.cpp lines
108-114): the manager after the call and the returned boolean. -/
def DDLDatabase.DropDatabase (manager : Manager) (database_oid : Nat) : Manager × Bool :=
  (manager.DropDatabaseWithOid database_oid, true)

/-! ## The tuple count and the dirty flag of `Index` -/

/-- The number of values of `size_t`, 2^64. -/
def SIZE_MODULUS : Nat := 18446744073709551616

/-- The members of `Index` that the functions of index.cpp lines 320-362 read
or write, with the four operation counters that its constructor sets to 0
(line 297). The metadata and the pool are left out: these functions do not
touch them. -/
structure Index where
  lookup_counter : Nat
  insert_counter : Nat
  delete_counter : Nat
  update_counter : Nat
  number_of_tuples : Nat
  dirty : Bool
  deriving DecidableEq, Repr

/-- `Index::IncreaseNumberOfTuplesBy(amount)` (index.cpp lines 324-327);
`+=` on `size_t` wraps at 2^64. -/
def Index.IncreaseNumberOfTuplesBy (index : Index) (amount : Nat) : Index :=
  ⟨index.lookup_counter, index.insert_counter, index.delete_counter, index.update_counter,
    (index.number_of_tuples + amount) % SIZE_MODULUS, true⟩

/-- `Index::DecreaseNumberOfTuplesBy(amount)` (index.cpp lines 333-336);
`-=` on `size_t` wraps at 2^64. -/
def Index.DecreaseNumberOfTuplesBy (index : Index) (amount : Nat) : Index :=
  ⟨index.lookup_counter, index.insert_counter, index.delete_counter, index.update_counter,
    (index.number_of_tuples + (SIZE_MODULUS - amount % SIZE_MODULUS)) % SIZE_MODULUS, true⟩

/-- `Index::SetNumberOfTuples(num_tuples)` (index.cpp lines 342-345). -/
def Index.SetNumberOfTuples (index : Index) (num_tuples : Nat) : Index :=
  ⟨index.lookup_counter, index.insert_counter, index.delete_counter, index.update_counter,
    num_tuples % SIZE_MODULUS, true⟩

/-- `Index::GetNumberOfTuples()` (index.cpp line 351). -/
def Index.GetNumberOfTuples (index : Index) : Nat :=
  index.number_of_tuples

/-- `Index::IsDirty()` (index.cpp line 357). -/
def Index.IsDirty (index : Index) : Bool :=
  index.dirty

/-- `Index::ResetDirty()` (index.cpp line 362). -/
def Index.ResetDirty (index : Index) : Index :=
  ⟨index.lookup_counter, index.insert_counter, index.delete_counter, index.update_counter,
    index.number_of_tuples, false⟩

/-- One call of the four functions that write the tuple count or the dirty
flag, for sequences of calls. -/
inductive CountCall
  | IncreaseNumberOfTuplesBy (amount : Nat)
  | DecreaseNumberOfTuplesBy (amount : Nat)
  | SetNumberOfTuples (num_tuples : Nat)
  | ResetDirty
  deriving DecidableEq, Repr

/-- The index after one call. -/
def Index.countCall (index : Index) : CountCall → Index
  | .IncreaseNumberOfTuplesBy amount => index.IncreaseNumberOfTuplesBy amount
  | .DecreaseNumberOfTuplesBy amount => index.DecreaseNumberOfTuplesBy amount
  | .SetNumberOfTuples num_tuples => index.SetNumberOfTuples num_tuples
  | .ResetDirty => index.ResetDirty

/-- The index after a sequence of calls. -/
def Index.countCalls (index : Index) (calls : List CountCall) : Index :=
  calls.foldl Index.countCall index

/-! ## `Index::ConstructLowerBoundTuple` with a log of its writes -/

/-- `LowerBoundStep` with a log: the same round of the loop, where every
`index_key->SetValue(column_itr, ...)` also appends `column_itr` to the list
of written columns. -/
def LowerBoundStepLogged {V : Type} (ops : ValueOps V) (values : List V)
    (key_column_ids : List Nat) (expr_types : List ExpressionType)
    (st : (Tuple V × List Nat) × Bool) (column_itr : Nat) :
    Except IndexError ((Tuple V × List Nat) × Bool) :=
  let offset := key_column_ids.indexOf column_itr
  let fillMin (all_constraints_equal : Bool) :
      Except IndexError ((Tuple V × List Nat) × Bool) :=
    match st.1.1.schema[column_itr]? with
    | some value_type =>
      .ok ((st.1.1.SetValue column_itr (ops.GetMinValue value_type), st.1.2 ++ [column_itr]),
        all_constraints_equal)
    | none => .error .OutOfRange
  if offset < key_column_ids.length then
    match expr_types[offset]? with
    | some expr_type =>
      if expr_type = EXPRESSION_TYPE_COMPARE_EQUAL then
        match values[offset]? with
        | some value => .ok ((st.1.1.SetValue column_itr value, st.1.2 ++ [column_itr]), st.2)
        | none => .error .OutOfRange
      else
        fillMin false
    | none => .error .OutOfRange
  else
    fillMin st.2

/-- `ConstructLowerBoundTuple` with a log: the filled key, the columns written
in the order of the writes, and the returned flag. -/
def ConstructLowerBoundTupleLogged {V : Type} (ops : ValueOps V)
    (index_key : Tuple V) (values : List V) (key_column_ids : List Nat)
    (expr_types : List ExpressionType) :
    Except IndexError ((Tuple V × List Nat) × Bool) :=
  let col_count := index_key.schema.length
  match (List.range col_count).foldlM
      (LowerBoundStepLogged ops values key_column_ids expr_types) ((index_key, []), true) with
  | .ok (key, all_constraints_equal) =>
    .ok (key, if col_count > values.length then false else all_constraints_equal)
  | .error e => .error e

/-! ## Theorems -/

section Theorems
variable {V : Type}

/-! ### Auxiliary lemmas -/

theorem CompareLoop_cons_succ (ops : ValueOps V) (index_key : List V)
    (e : ExpressionType) (expr_types : List ExpressionType) (v : V)
    (values : List V) (ids : List Nat) (i : Nat) :
    CompareLoop ops index_key (e :: expr_types) (v :: values) ids (i + 1)
      = CompareLoop ops index_key expr_types values ids i := by
  induction ids generalizing i with
  | nil => simp [CompareLoop]
  | cons c rest ih => simp [CompareLoop, ih]

theorem matchesPreds_nil (ops : ValueOps V) (index_key : List V) :
    matchesPreds ops index_key [] = .ok true := by
  simp [matchesPreds, Compare, keyColumnIds, CompareLoop]

theorem matchesPreds_cons (ops : ValueOps V) (index_key : List V)
    (p : Predicate V) (rest : List (Predicate V)) :
    matchesPreds ops index_key (p :: rest) =
      match index_key[p.column_id]? with
      | none => .error .OutOfRange
      | some lhs =>
        match CompareDispatch (CompareDiff ops lhs p.value p.expr_type) p.expr_type with
        | .ok true => matchesPreds ops index_key rest
        | .ok false => .ok false
        | .error e => .error e := by
  simp only [matchesPreds, Compare, keyColumnIds, exprTypes, predValues, List.map_cons,
    CompareLoop, List.getElem?_cons_zero, Nat.zero_add, CompareLoop_cons_succ]
  cases index_key[p.column_id]? <;> rfl

theorem indexOf_keyColumnIds_none (preds : List (Predicate V)) (c : Nat)
    (h : firstPredicate preds c = none) :
    ¬ (keyColumnIds preds).indexOf c < (keyColumnIds preds).length := by
  induction preds with
  | nil => simp [keyColumnIds]
  | cons q rest ih =>
    simp only [firstPredicate, List.find?_cons] at h
    by_cases hq : q.column_id = c
    · simp [hq] at h
    · simp only [hq, decide_False] at h
      have ih' := ih h
      simp only [keyColumnIds, List.map_cons, List.indexOf_cons, List.length_cons] at ih' ⊢
      have : (q.column_id == c) = false := by simpa using hq
      simp only [this, cond_false]
      omega

theorem indexOf_keyColumnIds_some (preds : List (Predicate V)) (c : Nat)
    (p : Predicate V) (h : firstPredicate preds c = some p) :
    (keyColumnIds preds).indexOf c < (keyColumnIds preds).length ∧
    (exprTypes preds)[(keyColumnIds preds).indexOf c]? = some p.expr_type ∧
    (predValues preds)[(keyColumnIds preds).indexOf c]? = some p.value := by
  induction preds with
  | nil => simp [firstPredicate] at h
  | cons q rest ih =>
    simp only [firstPredicate, List.find?_cons] at h
    by_cases hq : q.column_id = c
    · simp only [hq, decide_True, Option.some.injEq] at h
      subst h
      simp [keyColumnIds, exprTypes, predValues, List.indexOf_cons, hq]
    · simp only [hq, decide_False] at h
      have ih' := ih h
      have hb : (q.column_id == c) = false := by simpa using hq
      simp only [keyColumnIds, exprTypes, predValues, List.map_cons, List.indexOf_cons,
        List.length_cons, hb, cond_false, List.getElem?_cons_succ] at ih' ⊢
      exact ⟨by omega, ih'.2.1, ih'.2.2⟩

theorem LowerBoundStep_preds (ops : ValueOps V) (preds : List (Predicate V))
    (st : Tuple V × Bool) (c : Nat) (t : ValueType) (ht : st.1.schema[c]? = some t) :
    LowerBoundStep ops (predValues preds) (keyColumnIds preds) (exprTypes preds) st c
      = .ok (st.1.SetValue c (columnValue ops preds t c), (st.2 && columnFlag preds c)) := by
  unfold LowerBoundStep columnValue columnFlag
  cases h : firstPredicate preds c with
  | none =>
    have := indexOf_keyColumnIds_none preds c h
    simp [this, ht]
  | some p =>
    obtain ⟨h1, h2, h3⟩ := indexOf_keyColumnIds_some preds c p h
    by_cases he : p.expr_type = EXPRESSION_TYPE_COMPARE_EQUAL
    · simp [h1, h2, h3, he]
    · simp [h1, h2, he, ht]

theorem lowerBound_fold (ops : ValueOps V) (preds : List (Predicate V))
    (index_key : Tuple V) (n : Nat) (hn : n ≤ index_key.schema.length) :
    ∃ key : Tuple V,
      (List.range n).foldlM
        (LowerBoundStep ops (predValues preds) (keyColumnIds preds) (exprTypes preds))
        (index_key, true) = .ok (key, (List.range n).all (columnFlag preds)) ∧
      key.schema = index_key.schema ∧
      (∀ c t, c < n → index_key.schema[c]? = some t →
        key.data[c]? = some (columnValue ops preds t c)) ∧
      (∀ c, n ≤ c → key.data[c]? = index_key.data[c]?) := by
  induction n with
  | zero => exact ⟨index_key, by simp [pure, Except.pure], rfl, by simp, by simp⟩
  | succ n ih =>
    obtain ⟨key, hfold, hschema, hlow, hhigh⟩ := ih (by omega)
    have hlt : n < key.schema.length := by rw [hschema]; omega
    obtain ⟨t, ht⟩ : ∃ t, key.schema[n]? = some t := ⟨key.schema[n], by simp [hlt]⟩
    refine ⟨key.SetValue n (columnValue ops preds t n), ?_, hschema, ?_, ?_⟩
    · rw [List.range_succ, List.foldlM_append, hfold]
      simp only [List.foldlM_cons, List.foldlM_nil]
      have := LowerBoundStep_preds ops preds (key, (List.range n).all (columnFlag preds)) n t ht
      simp [this, bind, Except.bind, pure, Except.pure, List.all_append]
    · intro c t' hc ht'
      by_cases hcn : c = n
      · subst hcn
        rw [hschema] at ht
        have : t = t' := by simpa [ht] using ht'
        subst this
        have hl : c < key.data.length := by rw [key.wf]; exact hlt
        simp [Tuple.SetValue, List.getElem?_set, hl]
      · have : c < n := by omega
        simp only [Tuple.SetValue]
        rw [List.getElem?_set_ne (by omega)]
        exact hlow c t' this ht'
    · intro c hc
      simp only [Tuple.SetValue]
      rw [List.getElem?_set_ne (by omega)]
      exact hhigh c (by omega)

theorem lowerBoundPreds_spec (ops : ValueOps V) (preds : List (Predicate V))
    (index_key : Tuple V) :
    ∃ key : Tuple V,
      lowerBoundPreds ops index_key preds
        = .ok (key, (decide (index_key.schema.length ≤ preds.length) &&
            (List.range index_key.schema.length).all (columnFlag preds))) ∧
      key.schema = index_key.schema ∧
      (∀ c t, index_key.schema[c]? = some t →
        key.data[c]? = some (columnValue ops preds t c)) := by
  obtain ⟨key, hfold, hschema, hlow, _⟩ :=
    lowerBound_fold ops preds index_key index_key.schema.length (le_refl _)
  refine ⟨key, ?_, hschema, ?_⟩
  · have hl : (predValues preds).length = preds.length := by simp [predValues]
    simp only [lowerBoundPreds, ConstructLowerBoundTuple, hfold, hl]
    by_cases h : index_key.schema.length ≤ preds.length
    · have : ¬ (index_key.schema.length > preds.length) := by omega
      simp [h, this]
    · have : index_key.schema.length > preds.length := by omega
      simp [h, this]
  · intro c t ht
    have hc : c < index_key.schema.length := by
      have := List.getElem?_eq_some_iff.mp ht
      exact this.1
    exact hlow c t hc ht

theorem CompareDispatch_recognised (diff : CompareResult) (e : ExpressionType)
    (h : e.recognised = true) : ∃ b, CompareDispatch diff e = .ok b := by
  cases diff <;> cases e <;> simp [CompareDispatch, ExpressionType.recognised] at h ⊢

theorem matchesPreds_total (ops : ValueOps V) (index_key : List V)
    (preds : List (Predicate V))
    (hrec : ∀ p ∈ preds, p.expr_type.recognised = true)
    (hcol : ∀ p ∈ preds, p.column_id < index_key.length) :
    ∃ b, matchesPreds ops index_key preds = .ok b := by
  induction preds with
  | nil => exact ⟨true, matchesPreds_nil ops index_key⟩
  | cons p rest ih =>
    have hp : p.column_id < index_key.length := hcol p (List.mem_cons_self _ _)
    obtain ⟨b, hb⟩ := CompareDispatch_recognised
      (CompareDiff ops index_key[p.column_id] p.value p.expr_type) p.expr_type
      (hrec p (List.mem_cons_self _ _))
    obtain ⟨b', hb'⟩ := ih (fun q hq => hrec q (List.mem_cons_of_mem _ hq))
      (fun q hq => hcol q (List.mem_cons_of_mem _ hq))
    rw [matchesPreds_cons, List.getElem?_eq_getElem hp]
    simp only [hb]
    cases b
    · exact ⟨false, rfl⟩
    · exact ⟨b', hb'⟩

theorem matchesPreds_append (ops : ValueOps V) (index_key : List V)
    (l1 l2 : List (Predicate V)) :
    matchesPreds ops index_key (l1 ++ l2) =
      match matchesPreds ops index_key l1 with
      | .ok true => matchesPreds ops index_key l2
      | r => r := by
  induction l1 with
  | nil => simp [matchesPreds_nil]
  | cons p rest ih =>
    rw [List.cons_append, matchesPreds_cons, matchesPreds_cons]
    cases index_key[p.column_id]? with
    | none => rfl
    | some lhs =>
      simp only
      cases CompareDispatch (CompareDiff ops lhs p.value p.expr_type) p.expr_type with
      | error e => rfl
      | ok b =>
        cases b
        · rfl
        · exact ih

theorem matchesPreds_single_true (ops : ValueOps V) (index_key : List V)
    (p : Predicate V) (rest : List (Predicate V)) :
    matchesPreds ops index_key (p :: rest) = .ok true ↔
      matchesPreds ops index_key [p] = .ok true ∧ matchesPreds ops index_key rest = .ok true := by
  have h := matchesPreds_append ops index_key [p] rest
  simp only [List.singleton_append] at h
  rw [h]
  cases matchesPreds ops index_key [p] with
  | error e => simp
  | ok b => cases b <;> simp

theorem matchesPreds_true_iff (ops : ValueOps V) (index_key : List V)
    (preds : List (Predicate V)) :
    matchesPreds ops index_key preds = .ok true ↔
      ∀ p ∈ preds, matchesPreds ops index_key [p] = .ok true := by
  induction preds with
  | nil => simp [matchesPreds_nil]
  | cons p rest ih => rw [matchesPreds_single_true, ih]; simp

theorem firstPredicate_mem (preds : List (Predicate V)) (c : Nat) (p : Predicate V)
    (h : firstPredicate preds c = some p) : p ∈ preds ∧ p.column_id = c := by
  refine ⟨List.mem_of_find?_eq_some h, ?_⟩
  have := List.find?_some h
  simpa using this

theorem firstPredicate_none (preds : List (Predicate V)) (c : Nat)
    (h : firstPredicate preds c = none) : ∀ p ∈ preds, p.column_id ≠ c := by
  intro p hp
  have := List.find?_eq_none.mp h p hp
  simpa using this

theorem firstPredicate_isSome (preds : List (Predicate V)) (c : Nat) (q : Predicate V)
    (hq : q ∈ preds) (hc : q.column_id = c) : ∃ p, firstPredicate preds c = some p := by
  cases h : firstPredicate preds c with
  | none => exact absurd hc (firstPredicate_none preds c h q hq)
  | some p => exact ⟨p, rfl⟩

theorem all_columnFlag_iff (preds : List (Predicate V)) (n : Nat) :
    (List.range n).all (columnFlag preds) = true ↔
      ∀ c, c < n → ∀ p, firstPredicate preds c = some p →
        p.expr_type = EXPRESSION_TYPE_COMPARE_EQUAL := by
  simp only [List.all_eq_true, List.mem_range, columnFlag]
  constructor
  · intro h c hc p hp
    have := h c hc
    simpa [hp] using this
  · intro h c hc
    cases hp : firstPredicate preds c with
    | none => rfl
    | some p => simpa using h c hc p hp

theorem nodup_all_mem_of_length (ids : List Nat) (n : Nat) (hnd : ids.Nodup)
    (hin : ∀ c ∈ ids, c < n) (hlen : n ≤ ids.length) : ∀ c, c < n → c ∈ ids := by
  have hsub : ids.toFinset ⊆ Finset.range n := by
    intro c hc
    simpa using hin c (by simpa using hc)
  have hcard : (Finset.range n).card ≤ ids.toFinset.card := by
    rw [List.toFinset_card_of_nodup hnd, Finset.card_range]
    exact hlen
  have heq := Finset.eq_of_subset_of_card_le hsub hcard
  intro c hc
  have : c ∈ ids.toFinset := by rw [heq]; simpa using hc
  simpa using this

theorem length_ge_of_all_mem (ids : List Nat) (n : Nat) (hall : ∀ c, c < n → c ∈ ids) :
    n ≤ ids.length := by
  have hsub : Finset.range n ⊆ ids.toFinset := by
    intro c hc
    simpa using hall c (by simpa using hc)
  calc n = (Finset.range n).card := (Finset.card_range n).symm
    _ ≤ ids.toFinset.card := Finset.card_le_card hsub
    _ ≤ ids.length := List.toFinset_card_le ids

theorem eqCount_le_one (preds : List (Predicate V)) (c : Nat)
    (hnd : (keyColumnIds preds).Nodup) : eqCount preds c ≤ 1 := by
  induction preds with
  | nil => simp [eqCount]
  | cons q rest ih =>
    simp only [keyColumnIds, List.map_cons, List.nodup_cons, List.mem_map, not_exists,
      not_and] at hnd
    have ih' := ih hnd.2
    simp only [eqCount, List.filter_cons] at ih' ⊢
    by_cases hq : q.column_id = c ∧ q.expr_type = EXPRESSION_TYPE_COMPARE_EQUAL
    · have hnone : List.filter (fun p : Predicate V =>
          decide (p.column_id = c ∧ p.expr_type = EXPRESSION_TYPE_COMPARE_EQUAL)) rest = [] := by
        rw [List.filter_eq_nil_iff]
        intro p hp
        simp only [decide_eq_true_eq, not_and]
        intro hpc
        exact absurd (hpc.trans hq.1.symm) (hnd.1 p hp)
      have hd : decide (q.column_id = c ∧
          q.expr_type = EXPRESSION_TYPE_COMPARE_EQUAL) = true := decide_eq_true hq
      rw [if_pos hd, List.length_cons, hnone]
      exact le_refl _
    · simp only [hq, decide_False]
      exact ih'

theorem eqCount_pos (preds : List (Predicate V)) (c : Nat) (p : Predicate V)
    (hp : p ∈ preds) (hc : p.column_id = c)
    (he : p.expr_type = EXPRESSION_TYPE_COMPARE_EQUAL) : 0 < eqCount preds c := by
  unfold eqCount
  apply List.length_pos_of_mem (a := p)
  simp [List.mem_filter, hp, hc, he]

theorem eqCount_pos_mem (preds : List (Predicate V)) (c : Nat) (h : 0 < eqCount preds c) :
    ∃ p ∈ preds, p.column_id = c ∧ p.expr_type = EXPRESSION_TYPE_COMPARE_EQUAL := by
  unfold eqCount at h
  obtain ⟨p, hp⟩ := List.exists_mem_of_length_pos h
  simp only [List.mem_filter, decide_eq_true_eq] at hp
  exact ⟨p, hp.1, hp.2⟩

theorem matched_first_eq (ops : ValueOps V) (k : List V) (preds : List (Predicate V))
    (p : Predicate V) (v : V)
    (hmatch : matchesPreds ops k preds = .ok true) (hp : p ∈ preds)
    (he : p.expr_type = EXPRESSION_TYPE_COMPARE_EQUAL) (hv : k[p.column_id]? = some v)
    (hfour : ∀ a b n, ops.Compare a b ≠ CompareResult.other n) :
    ops.Compare v p.value = VALUE_COMPARE_EQUAL := by
  have h1 := (matchesPreds_true_iff ops k preds).mp hmatch p hp
  rw [matchesPreds_cons, hv] at h1
  have hn := hfour v p.value
  cases h : ops.Compare v p.value with
  | VALUE_COMPARE_EQUAL => rfl
  | other n => exact absurd h (hn n)
  | _ => simp [CompareDiff, CompareDispatch, he, h] at h1

theorem keyLessEq_of_pointwise (ops : ValueOps V) (a b : List V)
    (hlen : a.length = b.length)
    (h : ∀ (c : Nat) (x y : V), a[c]? = some x → b[c]? = some y →
      ops.Compare x y = VALUE_COMPARE_LESSTHAN ∨ ops.Compare x y = VALUE_COMPARE_EQUAL) :
    keyLessEq ops a b = true := by
  induction a generalizing b with
  | nil => simp [keyLessEq]
  | cons x xs ih =>
    cases b with
    | nil => simp at hlen
    | cons y ys =>
      rcases h 0 x y (by simp) (by simp) with h0 | h0
      · simp [keyLessEq, h0]
      · simp only [keyLessEq, h0]
        apply ih ys (by simpa using hlen)
        intro c x' y' hx hy
        exact h (c + 1) x' y' (by simpa using hx) (by simpa using hy)

theorem compareCodes_ne_other (a b : List Nat) (n : Int) :
    compareCodes a b ≠ CompareResult.other n := by
  induction a generalizing b with
  | nil => cases b <;> simp [compareCodes]
  | cons x xs ih =>
    cases b with
    | nil => simp [compareCodes]
    | cons y ys =>
      simp only [compareCodes]
      split
      · simp
      · split
        · simp
        · exact ih ys

theorem compareCodes_eq_symm (a b : List Nat)
    (h : compareCodes a b = VALUE_COMPARE_EQUAL) : compareCodes b a = VALUE_COMPARE_EQUAL := by
  induction a generalizing b with
  | nil => cases b <;> simp_all [compareCodes]
  | cons x xs ih =>
    cases b with
    | nil => simp [compareCodes] at h
    | cons y ys =>
      simp only [compareCodes] at h ⊢
      by_cases h1 : x < y
      · simp [h1] at h
      · by_cases h2 : y < x
        · simp [h1, h2] at h
        · simp only [h1, h2, if_false] at h ⊢
          exact ih ys h

theorem compareInt_ne_other (a b n : Int) : compareInt a b ≠ CompareResult.other n := by
  unfold compareInt
  split_ifs <;> simp

theorem compareInt_eq_symm (a b : Int) (h : compareInt a b = VALUE_COMPARE_EQUAL) :
    compareInt b a = VALUE_COMPARE_EQUAL := by
  unfold compareInt at h ⊢
  split_ifs at h with h1 h2
  subst h2
  simp

theorem compareRat_ne_other (a b : Rat) (n : Int) :
    compareRat a b ≠ CompareResult.other n := by
  unfold compareRat
  split_ifs <;> simp

theorem compareRat_eq_symm (a b : Rat) (h : compareRat a b = VALUE_COMPARE_EQUAL) :
    compareRat b a = VALUE_COMPARE_EQUAL := by
  unfold compareRat at h ⊢
  split_ifs at h with h1 h2
  subst h2
  simp

theorem sampleOps_ne_other (a b : Value) (n : Int) :
    sampleOps.Compare a b ≠ CompareResult.other n := by
  cases a <;> cases b <;> simp only [sampleOps, Value.Compare] <;>
    first
    | exact compareInt_ne_other _ _ n
    | exact compareRat_ne_other _ _ n
    | exact compareCodes_ne_other _ _ n
    | simp

theorem sampleOps_eq_symm (a b : Value)
    (h : sampleOps.Compare a b = VALUE_COMPARE_EQUAL) :
    sampleOps.Compare b a = VALUE_COMPARE_EQUAL := by
  cases a <;> cases b <;> simp only [sampleOps, Value.Compare] at h ⊢ <;>
    first
    | exact compareInt_eq_symm _ _ h
    | exact compareRat_eq_symm _ _ h
    | exact compareCodes_eq_symm _ _ h
    | simp at h

theorem CompareLoop_take (ops : ValueOps V) (index_key : List V)
    (expr_types : List ExpressionType) (values : List V) (ids : List Nat) (i n : Nat)
    (h : i + ids.length ≤ n) :
    CompareLoop ops index_key (expr_types.take n) (values.take n) ids i
      = CompareLoop ops index_key expr_types values ids i := by
  induction ids generalizing i with
  | nil => simp [CompareLoop]
  | cons c rest ih =>
    have hi : i < n := by simp only [List.length_cons] at h; omega
    simp only [CompareLoop, List.getElem?_take_of_lt hi]
    rw [ih (i + 1) (by simp only [List.length_cons] at h; omega)]

theorem matchesPreds_unsupported (ops : ValueOps V) (index_key : List V)
    (p : Predicate V) (rest : List (Predicate V)) (lhs : V)
    (hop : p.expr_type.recognised = false)
    (hkey : index_key[p.column_id]? = some lhs)
    (hcmp : ops.Compare lhs p.value = VALUE_COMPARE_LESSTHAN ∨
      ops.Compare lhs p.value = VALUE_COMPARE_EQUAL ∨
      ops.Compare lhs p.value = VALUE_COMPARE_GREATERTHAN) :
    matchesPreds ops index_key (p :: rest) = .error (.IndexException p.expr_type) := by
  rw [matchesPreds_cons, hkey]
  cases he : p.expr_type <;> simp [he, ExpressionType.recognised] at hop
  rcases hcmp with h | h | h <;> simp [CompareDiff, CompareDispatch, h, he]

theorem ints_only_fold (key_schema : List ValueType) (b : Bool) :
    key_schema.foldl
        (fun ints_only key_schema_column_type =>
          if key_schema_column_type ≠ VALUE_TYPE_INTEGER then false else ints_only) b = true ↔
      b = true ∧ ∀ t ∈ key_schema, t = VALUE_TYPE_INTEGER := by
  induction key_schema generalizing b with
  | nil => simp
  | cons t rest ih =>
    simp only [List.foldl_cons, ih, List.mem_cons, forall_eq_or_imp]
    by_cases ht : t = VALUE_TYPE_INTEGER
    · simp [ht]
    · simp [ht]

theorem InsertEntry_entries {K : Type} [DecidableEq K] (index : OrderedIndex K) (key : K)
    (item : ItemPointer) :
    (index.InsertEntry key item).1.entries = index.entries ∨
    (index.InsertEntry key item).1.entries = index.entries ++ [(key, item)] := by
  unfold OrderedIndex.InsertEntry
  split_ifs <;> simp

theorem InsertEntry_success_entries {K : Type} [DecidableEq K] (index : OrderedIndex K)
    (key : K) (item : ItemPointer) (h : (index.InsertEntry key item).2 = true) :
    (index.InsertEntry key item).1.entries = index.entries ++ [(key, item)] := by
  unfold OrderedIndex.InsertEntry at h ⊢
  by_cases h1 : index.unique_keys = true
  · by_cases h2 : index.entries.any (fun e => decide (e.1 = key)) = true
    · simp [h1, h2] at h
    · simp [h1, h2]
  · simp [h1]

theorem InsertEntry_multimap_entries {K : Type} [DecidableEq K] (index : OrderedIndex K)
    (key : K) (item : ItemPointer) (hmulti : index.unique_keys = false) :
    (index.InsertEntry key item).1.entries = index.entries ++ [(key, item)] ∧
    (index.InsertEntry key item).1.unique_keys = false := by
  simp [OrderedIndex.InsertEntry, hmulti]

theorem scan_count_eq {K : Type} [DecidableEq K] (l : List (K × ItemPointer)) (key : K)
    (j : ItemPointer) :
    ((l.filter (fun e => decide (e.1 = key))).map (fun e => e.2)).count j
      = l.count (key, j) := by
  induction l with
  | nil => rfl
  | cons e rest ih =>
    obtain ⟨k, i⟩ := e
    by_cases hk : k = key
    · subst hk
      rw [List.filter_cons_of_pos (by simp), List.map_cons]
      by_cases hi : i = j
      · subst hi
        rw [List.count_cons_self, List.count_cons_self, ih]
      · have hne : (k, j) ≠ (k, i) := fun h => hi (Prod.mk.inj h).2.symm
        rw [List.count_cons_of_ne (Ne.symm hi), List.count_cons_of_ne hne, ih]
    · have hne : (key, j) ≠ (k, i) := fun h => hk (Prod.mk.inj h).1.symm
      rw [List.filter_cons_of_neg (by simpa using hk), List.count_cons_of_ne hne, ih]

theorem scan_mem_iff {K : Type} [DecidableEq K] (l : List (K × ItemPointer)) (key : K)
    (j : ItemPointer) :
    j ∈ (l.filter (fun e => decide (e.1 = key))).map (fun e => e.2) ↔ (key, j) ∈ l := by
  simp only [List.mem_map, List.mem_filter, decide_eq_true_eq]
  constructor
  · rintro ⟨e, ⟨he, hk⟩, hj⟩
    have : e = (key, j) := Prod.ext hk hj
    rw [← this]
    exact he
  · intro h
    exact ⟨(key, j), ⟨h, rfl⟩, rfl⟩

theorem run_no_insert_entries {K : Type} [DecidableEq K] (calls : List (IndexCall K))
    (index : OrderedIndex K) (key : K)
    (hcalls : ∀ c ∈ calls, c.insertsKey key = false)
    (hindex : ∀ e ∈ index.entries, e.1 ≠ key) :
    ∀ e ∈ (index.run calls).entries, e.1 ≠ key := by
  induction calls generalizing index with
  | nil => simpa [OrderedIndex.run] using hindex
  | cons c rest ih =>
    have hrest : ∀ d ∈ rest, d.insertsKey key = false :=
      fun d hm => hcalls d (List.mem_cons_of_mem _ hm)
    have hc := hcalls c (List.mem_cons_self _ _)
    have hstep : ∀ e ∈ (index.call c).entries, e.1 ≠ key := by
      cases c with
      | InsertEntry k i =>
        have hk : k ≠ key := by simpa [IndexCall.insertsKey] using hc
        intro e he
        simp only [OrderedIndex.call] at he
        rcases InsertEntry_entries index k i with h | h <;> rw [h] at he
        · exact hindex e he
        · rcases List.mem_append.mp he with h1 | h1
          · exact hindex e h1
          · simp only [List.mem_singleton] at h1
            rw [h1]
            exact hk
      | DeleteEntry k i =>
        intro e he
        simp only [OrderedIndex.call, OrderedIndex.DeleteEntry] at he
        exact hindex e (List.mem_of_mem_erase he)
    have := ih (index.call c) hrest hstep
    simpa [OrderedIndex.run] using this

theorem insertTimes_entries {K : Type} [DecidableEq K] (index : OrderedIndex K) (key : K)
    (item : ItemPointer) (n : Nat) (hmulti : index.unique_keys = false) :
    (index.insertTimes key item n).entries = index.entries ++ List.replicate n (key, item) ∧
    (index.insertTimes key item n).unique_keys = false := by
  induction n with
  | zero => simp [OrderedIndex.insertTimes, hmulti]
  | succ n ih =>
    obtain ⟨h1, h2⟩ := ih
    obtain ⟨h3, h4⟩ := InsertEntry_multimap_entries (index.insertTimes key item n) key item h2
    simp only [OrderedIndex.insertTimes]
    refine ⟨?_, h4⟩
    rw [h3, h1, List.replicate_succ', List.append_assoc]

theorem GetDatabaseWithOid_AddDatabase (manager : Manager) (database_oid : Nat) :
    (manager.AddDatabase ⟨database_oid⟩).GetDatabaseWithOid database_oid ≠ none := by
  intro h
  simp only [Manager.GetDatabaseWithOid, Manager.AddDatabase, List.find?_eq_none,
    List.mem_append, List.mem_singleton] at h
  have := h ⟨database_oid⟩ (Or.inr rfl)
  simp at this

theorem countCalls_append (index : Index) (calls : List CountCall) (c : CountCall) :
    index.countCalls (calls ++ [c]) = (index.countCalls calls).countCall c := by
  simp [Index.countCalls, List.foldl_append]

theorem firstPredicate_append_cons (before : List (Predicate V)) (p : Predicate V)
    (after : List (Predicate V)) (c : Nat)
    (hbefore : ∀ q ∈ before, q.column_id ≠ c) (hp : p.column_id = c) :
    firstPredicate (before ++ p :: after) c = some p := by
  unfold firstPredicate
  rw [List.find?_append]
  have hnone : List.find? (fun q : Predicate V => decide (q.column_id = c)) before = none := by
    rw [List.find?_eq_none]
    intro q hq
    simpa using hbefore q hq
  rw [hnone]
  simp [List.find?_cons, hp]

theorem LowerBoundStepLogged_eq (ops : ValueOps V) (values : List V)
    (key_column_ids : List Nat) (expr_types : List ExpressionType)
    (key : Tuple V) (log : List Nat) (flag : Bool) (c : Nat) :
    LowerBoundStepLogged ops values key_column_ids expr_types ((key, log), flag) c
      = match LowerBoundStep ops values key_column_ids expr_types (key, flag) c with
        | .ok (key2, flag2) => .ok ((key2, log ++ [c]), flag2)
        | .error e => .error e := by
  unfold LowerBoundStepLogged LowerBoundStep
  simp only
  split_ifs with h1
  · cases h2 : expr_types[List.indexOf c key_column_ids]? with
    | none => rfl
    | some e =>
      simp only
      split_ifs with h3
      · cases values[List.indexOf c key_column_ids]? <;> rfl
      · cases key.schema[c]? <;> rfl
  · cases key.schema[c]? <;> rfl

theorem lowerBoundLogged_fold (ops : ValueOps V) (values : List V)
    (key_column_ids : List Nat) (expr_types : List ExpressionType)
    (index_key : Tuple V) (n : Nat) :
    (List.range n).foldlM (LowerBoundStepLogged ops values key_column_ids expr_types)
        ((index_key, []), true)
      = match (List.range n).foldlM (LowerBoundStep ops values key_column_ids expr_types)
          (index_key, true) with
        | .ok (key, flag) => .ok ((key, List.range n), flag)
        | .error e => .error e := by
  induction n with
  | zero => rfl
  | succ n ih =>
    rw [List.range_succ, List.foldlM_append, List.foldlM_append, ih]
    cases (List.range n).foldlM (LowerBoundStep ops values key_column_ids expr_types)
        (index_key, true) with
    | error e => rfl
    | ok st =>
      obtain ⟨key, flag⟩ := st
      simp only [bind, Except.bind, List.foldlM_cons, List.foldlM_nil, pure, Except.pure,
        LowerBoundStepLogged_eq]
      cases LowerBoundStep ops values key_column_ids expr_types (key, flag) n with
      | error e => rfl
      | ok st2 => rfl

theorem CompareDispatch_not_OutOfRange (diff : CompareResult) (e : ExpressionType) :
    CompareDispatch diff e ≠ .error .OutOfRange := by
  cases diff <;> cases e <;> simp [CompareDispatch]

theorem matchesPreds_not_OutOfRange (ops : ValueOps V) (index_key : List V)
    (preds : List (Predicate V))
    (hcol : ∀ p ∈ preds, p.column_id < index_key.length) :
    matchesPreds ops index_key preds ≠ .error .OutOfRange := by
  induction preds with
  | nil => simp [matchesPreds_nil]
  | cons p rest ih =>
    have hp : p.column_id < index_key.length := hcol p (List.mem_cons_self _ _)
    rw [matchesPreds_cons, List.getElem?_eq_getElem hp]
    simp only
    have hnot := CompareDispatch_not_OutOfRange
      (CompareDiff ops index_key[p.column_id] p.value p.expr_type) p.expr_type
    cases hd : CompareDispatch (CompareDiff ops index_key[p.column_id] p.value p.expr_type)
        p.expr_type with
    | error e =>
      rw [hd] at hnot
      exact hnot
    | ok b =>
      cases b
      · simp
      · exact ih (fun q hq => hcol q (List.mem_cons_of_mem _ hq))

/-! ### The claims -/

/-- C1: for a single ordering predicate `(c, op, v)` on a key whose column `c`
compares `LT`, `EQ` or `GT` with `v`, `Index::Compare` returns the cell of the
truth table: `EQ` is true iff the comparison is `EQ`, `NE` iff it is `LT` or
`GT`, `LT` iff it is `LT`, `LE` iff it is `LT` or `EQ`, `GT` iff it is `GT`,
`GE` iff it is `GT` or `EQ`. -/
theorem Compare_truth_table (ops : ValueOps V) (index_key : List V) (c : Nat)
    (lhs v : V) (hkey : index_key[c]? = some lhs)
    (hcmp : ops.Compare lhs v = VALUE_COMPARE_LESSTHAN ∨
      ops.Compare lhs v = VALUE_COMPARE_EQUAL ∨
      ops.Compare lhs v = VALUE_COMPARE_GREATERTHAN) :
    Compare ops index_key [c] [EXPRESSION_TYPE_COMPARE_EQUAL] [v]
      = .ok (decide (ops.Compare lhs v = VALUE_COMPARE_EQUAL)) ∧
    Compare ops index_key [c] [EXPRESSION_TYPE_COMPARE_NOTEQUAL] [v]
      = .ok (decide (ops.Compare lhs v = VALUE_COMPARE_LESSTHAN ∨
          ops.Compare lhs v = VALUE_COMPARE_GREATERTHAN)) ∧
    Compare ops index_key [c] [EXPRESSION_TYPE_COMPARE_LESSTHAN] [v]
      = .ok (decide (ops.Compare lhs v = VALUE_COMPARE_LESSTHAN)) ∧
    Compare ops index_key [c] [EXPRESSION_TYPE_COMPARE_LESSTHANOREQUALTO] [v]
      = .ok (decide (ops.Compare lhs v = VALUE_COMPARE_LESSTHAN ∨
          ops.Compare lhs v = VALUE_COMPARE_EQUAL)) ∧
    Compare ops index_key [c] [EXPRESSION_TYPE_COMPARE_GREATERTHAN] [v]
      = .ok (decide (ops.Compare lhs v = VALUE_COMPARE_GREATERTHAN)) ∧
    Compare ops index_key [c] [EXPRESSION_TYPE_COMPARE_GREATERTHANOREQUALTO] [v]
      = .ok (decide (ops.Compare lhs v = VALUE_COMPARE_GREATERTHAN ∨
          ops.Compare lhs v = VALUE_COMPARE_EQUAL)) := by
  rcases hcmp with h | h | h <;>
    simp [Compare, CompareLoop, hkey, CompareDiff, CompareDispatch, h]

/-- C1, at a concrete input: the key `(5)` against the right-hand value 7, where
the comparison is `LT`. -/
theorem Compare_truth_table_witness :
    Compare sampleOps [Value.integer 5] [0] [EXPRESSION_TYPE_COMPARE_LESSTHAN] [Value.integer 7]
      = .ok true ∧
    Compare sampleOps [Value.integer 5] [0] [EXPRESSION_TYPE_COMPARE_GREATERTHANOREQUALTO]
      [Value.integer 7] = .ok false :=
  have h := Compare_truth_table sampleOps [Value.integer 5] 0 (Value.integer 5)
    (Value.integer 7) rfl (Or.inl rfl)
  ⟨h.2.2.1, h.2.2.2.2.2⟩

/-- C2: on a predicate list whose operators are all recognised (and whose
column ids lie inside the key), `Index::Compare` returns a boolean that is true
iff each predicate alone, as a one-element list, returns true; the empty list
returns true; and the result for a concatenation of two lists is the logical
AND of the results for the two lists. -/
theorem Compare_conjunction (ops : ValueOps V) (index_key : List V)
    (preds : List (Predicate V))
    (hrec : ∀ p ∈ preds, p.expr_type.recognised = true)
    (hcol : ∀ p ∈ preds, p.column_id < index_key.length) :
    (∃ b, Compare ops index_key (keyColumnIds preds) (exprTypes preds) (predValues preds)
        = .ok b ∧
      (b = true ↔ ∀ p ∈ preds,
        Compare ops index_key [p.column_id] [p.expr_type] [p.value] = .ok true)) ∧
    Compare ops index_key [] [] [] = .ok true ∧
    (∀ l1 l2 : List (Predicate V), preds = l1 ++ l2 →
      ∃ b1 b2,
        Compare ops index_key (keyColumnIds l1) (exprTypes l1) (predValues l1) = .ok b1 ∧
        Compare ops index_key (keyColumnIds l2) (exprTypes l2) (predValues l2) = .ok b2 ∧
        Compare ops index_key (keyColumnIds preds) (exprTypes preds) (predValues preds)
          = .ok (b1 && b2)) := by
  refine ⟨?_, matchesPreds_nil ops index_key, ?_⟩
  · obtain ⟨b, hb⟩ := matchesPreds_total ops index_key preds hrec hcol
    refine ⟨b, hb, ?_⟩
    have h := matchesPreds_true_iff ops index_key preds
    rw [hb] at h
    constructor
    · intro hbt
      subst hbt
      exact h.mp rfl
    · intro hall
      have := h.mpr hall
      simpa using this
  · intro l1 l2 hsplit
    subst hsplit
    obtain ⟨b1, hb1⟩ := matchesPreds_total ops index_key l1
      (fun p hp => hrec p (List.mem_append_left _ hp))
      (fun p hp => hcol p (List.mem_append_left _ hp))
    obtain ⟨b2, hb2⟩ := matchesPreds_total ops index_key l2
      (fun p hp => hrec p (List.mem_append_right _ hp))
      (fun p hp => hcol p (List.mem_append_right _ hp))
    refine ⟨b1, b2, hb1, hb2, ?_⟩
    have h := matchesPreds_append ops index_key l1 l2
    rw [hb1] at h
    cases b1
    · exact h
    · simpa [hb2] using h

/-- C2, at a concrete input: the key `(100, "b")` and the list
`(0, EQ, 100), (1, GT, "b")`, split into its two predicates. -/
theorem Compare_conjunction_witness :
    ∃ b1 b2,
      Compare sampleOps [Value.integer 100, Value.varchar "b"] [0]
        [EXPRESSION_TYPE_COMPARE_EQUAL] [Value.integer 100] = .ok b1 ∧
      Compare sampleOps [Value.integer 100, Value.varchar "b"] [1]
        [EXPRESSION_TYPE_COMPARE_GREATERTHAN] [Value.varchar "b"] = .ok b2 ∧
      Compare sampleOps [Value.integer 100, Value.varchar "b"] [0, 1]
        [EXPRESSION_TYPE_COMPARE_EQUAL, EXPRESSION_TYPE_COMPARE_GREATERTHAN]
        [Value.integer 100, Value.varchar "b"] = .ok (b1 && b2) :=
  (Compare_conjunction sampleOps [Value.integer 100, Value.varchar "b"]
    [⟨0, EXPRESSION_TYPE_COMPARE_EQUAL, Value.integer 100⟩,
      ⟨1, EXPRESSION_TYPE_COMPARE_GREATERTHAN, Value.varchar "b"⟩]
    (by decide) (by decide)).2.2
    [⟨0, EXPRESSION_TYPE_COMPARE_EQUAL, Value.integer 100⟩]
    [⟨1, EXPRESSION_TYPE_COMPARE_GREATERTHAN, Value.varchar "b"⟩] rfl

/-- C3: for a single predicate `(c, IN, list)`, `Index::Compare` returns
`in_list(key[c], list)`, without an error, and whatever the ordering
comparison is: replacing `Value::Compare` by any other function leaves the
result as it is. -/
theorem Compare_in_list (ops : ValueOps V) (index_key : List V) (c : Nat)
    (lhs list : V) (hkey : index_key[c]? = some lhs) :
    Compare ops index_key [c] [EXPRESSION_TYPE_COMPARE_IN] [list]
      = .ok (ops.InList lhs list) ∧
    ∀ cmp : V → V → CompareResult,
      Compare ⟨cmp, ops.InList, ops.GetMinValue⟩ index_key [c]
        [EXPRESSION_TYPE_COMPARE_IN] [list] = .ok (ops.InList lhs list) := by
  constructor
  · cases h : ops.InList lhs list <;>
      simp [Compare, CompareLoop, hkey, CompareDiff, CompareDispatch, h]
  · intro cmp
    cases h : ops.InList lhs list <;>
      simp [Compare, CompareLoop, hkey, CompareDiff, CompareDispatch, h]

/-- C3, at a concrete input: the key `(5)` and the list value `[3, 5, 8]`. -/
theorem Compare_in_list_witness :
    Compare sampleOps [Value.integer 5] [0] [EXPRESSION_TYPE_COMPARE_IN]
      [Value.array [3, 5, 8]] = .ok true :=
  (Compare_in_list sampleOps [Value.integer 5] 0 (Value.integer 5) (Value.array [3, 5, 8])
    rfl).1

/-- C4 (as stated, refuted): on the list `(0, GE, 3), (0, EQ, 5)` and a
one-column key schema, every key column has an `EQ` predicate in the list and
there are at least as many values as key columns, yet
`Index::ConstructLowerBoundTuple` returns false. -/
theorem LowerBound_flag_counterexample :
    (∃ key,
      ConstructLowerBoundTuple sampleOps ⟨[VALUE_TYPE_INTEGER], [Value.integer 0], rfl⟩
        [Value.integer 3, Value.integer 5] [0, 0]
        [EXPRESSION_TYPE_COMPARE_GREATERTHANOREQUALTO, EXPRESSION_TYPE_COMPARE_EQUAL]
        = .ok (key, false)) ∧
    (∀ c, c < [VALUE_TYPE_INTEGER].length →
      ∃ i : Nat, [0, 0][i]? = some c ∧
        [EXPRESSION_TYPE_COMPARE_GREATERTHANOREQUALTO, EXPRESSION_TYPE_COMPARE_EQUAL][i]?
          = some EXPRESSION_TYPE_COMPARE_EQUAL) ∧
    [Value.integer 3, Value.integer 5].length ≥ [VALUE_TYPE_INTEGER].length :=
  ⟨⟨_, rfl⟩, fun c hc => ⟨1, by
    have : c = 0 := by simpa using hc
    subst this
    exact ⟨rfl, rfl⟩⟩, by decide⟩

/-- C4 (amended): when `Index::ConstructLowerBoundTuple` returns true, there
are at least as many values as key columns and no key column has a non-`EQ`
operator at its first listing in `key_column_ids`; and it returns true
whenever there are at least as many values as key columns and every key column
is listed with `EQ` as the operator of its first listing. -/
theorem LowerBound_flag (ops : ValueOps V) (index_key : Tuple V)
    (preds : List (Predicate V)) :
    ∃ key flag,
      ConstructLowerBoundTuple ops index_key (predValues preds) (keyColumnIds preds)
        (exprTypes preds) = .ok (key, flag) ∧
      (flag = true →
        index_key.schema.length ≤ (predValues preds).length ∧
        ∀ c, c < index_key.schema.length → ∀ p, firstPredicate preds c = some p →
          p.expr_type = EXPRESSION_TYPE_COMPARE_EQUAL) ∧
      ((index_key.schema.length ≤ (predValues preds).length ∧
        ∀ c, c < index_key.schema.length → ∃ p, firstPredicate preds c = some p ∧
          p.expr_type = EXPRESSION_TYPE_COMPARE_EQUAL) → flag = true) := by
  obtain ⟨key, hres, _, _⟩ := lowerBoundPreds_spec ops preds index_key
  have hl : (predValues preds).length = preds.length := by simp [predValues]
  refine ⟨key, _, hres, ?_, ?_⟩
  · intro h
    rw [Bool.and_eq_true, decide_eq_true_eq, all_columnFlag_iff] at h
    exact ⟨by rw [hl]; exact h.1, h.2⟩
  · rintro ⟨h1, h2⟩
    rw [Bool.and_eq_true, decide_eq_true_eq, all_columnFlag_iff]
    refine ⟨by rw [← hl]; exact h1, ?_⟩
    intro c hc p hp
    obtain ⟨q, hq, hqe⟩ := h2 c hc
    rw [hp] at hq
    cases hq
    exact hqe

/-- C4 (amended), at a concrete input: the list `(0, EQ, 100), (1, EQ, "b")` on
the two-column key schema. -/
theorem LowerBound_flag_witness :
    ∃ key,
      ConstructLowerBoundTuple sampleOps
        ⟨[VALUE_TYPE_INTEGER, VALUE_TYPE_VARCHAR], [Value.integer 0, Value.varchar "x"], rfl⟩
        [Value.integer 100, Value.varchar "b"] [0, 1]
        [EXPRESSION_TYPE_COMPARE_EQUAL, EXPRESSION_TYPE_COMPARE_EQUAL] = .ok (key, true) := by
  obtain ⟨key, flag, hres, _, h2⟩ := LowerBound_flag sampleOps
    ⟨[VALUE_TYPE_INTEGER, VALUE_TYPE_VARCHAR], [Value.integer 0, Value.varchar "x"], rfl⟩
    [⟨0, EXPRESSION_TYPE_COMPARE_EQUAL, Value.integer 100⟩,
      ⟨1, EXPRESSION_TYPE_COMPARE_EQUAL, Value.varchar "b"⟩]
  have hflag : flag = true := by
    apply h2
    refine ⟨by decide, ?_⟩
    intro c hc
    have hc2 : c < 2 := hc
    interval_cases c
    · exact ⟨_, rfl, rfl⟩
    · exact ⟨_, rfl, rfl⟩
  subst hflag
  exact ⟨key, hres⟩

/-- C5 (as stated, refuted): on the list `(0, GE, 3), (0, EQ, 5)` column 0
appears with operator `EQ`, yet `Index::ConstructLowerBoundTuple` fills it with
the type minimum, which is the right-hand value of no `EQ` predicate on the
column. -/
theorem LowerBound_eq_any_position_counterexample :
    ∃ key flag,
      ConstructLowerBoundTuple sampleOps ⟨[VALUE_TYPE_INTEGER], [Value.integer 0], rfl⟩
        [Value.integer 3, Value.integer 5] [0, 0]
        [EXPRESSION_TYPE_COMPARE_GREATERTHANOREQUALTO, EXPRESSION_TYPE_COMPARE_EQUAL]
        = .ok (key, flag) ∧
      key.data[0]? = some (Value.GetMinValue VALUE_TYPE_INTEGER) ∧
      key.data[0]? ≠ some (Value.integer 5) :=
  ⟨_, _, rfl, rfl, by decide⟩

/-- C5 (amended): a key column whose first listing in `key_column_ids` has
operator `EQ` is filled by `Index::ConstructLowerBoundTuple` with the
right-hand value of that first predicate. -/
theorem LowerBound_fills_first_eq (ops : ValueOps V) (index_key : Tuple V)
    (preds : List (Predicate V)) (c : Nat) (p : Predicate V)
    (hc : c < index_key.schema.length)
    (hfirst : firstPredicate preds c = some p)
    (heq : p.expr_type = EXPRESSION_TYPE_COMPARE_EQUAL) :
    ∃ key flag,
      ConstructLowerBoundTuple ops index_key (predValues preds) (keyColumnIds preds)
        (exprTypes preds) = .ok (key, flag) ∧
      key.data[c]? = some p.value := by
  obtain ⟨key, hres, _, hdata⟩ := lowerBoundPreds_spec ops preds index_key
  refine ⟨key, _, hres, ?_⟩
  rw [hdata c index_key.schema[c] (by simp [hc])]
  simp [columnValue, hfirst, heq]

/-- C5 (amended), at a concrete input: the list `(0, EQ, 5), (0, EQ, 9)`. -/
theorem LowerBound_fills_first_eq_witness :
    ∃ key flag,
      ConstructLowerBoundTuple sampleOps ⟨[VALUE_TYPE_INTEGER], [Value.integer 0], rfl⟩
        [Value.integer 5, Value.integer 9] [0, 0]
        [EXPRESSION_TYPE_COMPARE_EQUAL, EXPRESSION_TYPE_COMPARE_EQUAL] = .ok (key, flag) ∧
      key.data[0]? = some (Value.integer 5) :=
  LowerBound_fills_first_eq sampleOps ⟨[VALUE_TYPE_INTEGER], [Value.integer 0], rfl⟩
    [⟨0, EXPRESSION_TYPE_COMPARE_EQUAL, Value.integer 5⟩,
      ⟨0, EXPRESSION_TYPE_COMPARE_EQUAL, Value.integer 9⟩]
    0 ⟨0, EXPRESSION_TYPE_COMPARE_EQUAL, Value.integer 5⟩ (by decide) rfl rfl

/-- C6: a key column that is absent from `key_column_ids`, or that carries
only non-`EQ` predicates, is filled with the minimum of its type by
`Index::ConstructLowerBoundTuple`. -/
theorem LowerBound_pads_min (ops : ValueOps V) (index_key : Tuple V)
    (preds : List (Predicate V)) (c : Nat) (t : ValueType)
    (hc : index_key.schema[c]? = some t)
    (hno : ∀ p ∈ preds, p.column_id = c → p.expr_type ≠ EXPRESSION_TYPE_COMPARE_EQUAL) :
    ∃ key flag,
      ConstructLowerBoundTuple ops index_key (predValues preds) (keyColumnIds preds)
        (exprTypes preds) = .ok (key, flag) ∧
      key.data[c]? = some (ops.GetMinValue t) := by
  obtain ⟨key, hres, _, hdata⟩ := lowerBoundPreds_spec ops preds index_key
  refine ⟨key, _, hres, ?_⟩
  rw [hdata c t hc]
  unfold columnValue
  cases hp : firstPredicate preds c with
  | none => rfl
  | some p =>
    obtain ⟨hmem, hcol⟩ := firstPredicate_mem preds c p hp
    simp [hno p hmem hcol]

/-- C6, at a concrete input: the list `(0, EQ, 100)` on a two-column key schema
leaves column 1 without a predicate. -/
theorem LowerBound_pads_min_witness :
    ∃ key flag,
      ConstructLowerBoundTuple sampleOps
        ⟨[VALUE_TYPE_INTEGER, VALUE_TYPE_VARCHAR], [Value.integer 0, Value.varchar "x"], rfl⟩
        [Value.integer 100] [0] [EXPRESSION_TYPE_COMPARE_EQUAL] = .ok (key, flag) ∧
      key.data[1]? = some (Value.varchar "") :=
  LowerBound_pads_min sampleOps
    ⟨[VALUE_TYPE_INTEGER, VALUE_TYPE_VARCHAR], [Value.integer 0, Value.varchar "x"], rfl⟩
    [⟨0, EXPRESSION_TYPE_COMPARE_EQUAL, Value.integer 100⟩] 1 VALUE_TYPE_VARCHAR rfl
    (by decide)

/-- C7 (as stated, refuted): the list `(0, EQ, 100), (1, GE, "b"), (1, EQ, "b")`
contains exactly one `EQ` predicate for each of the two key columns, yet
`Index::ConstructLowerBoundTuple` returns false. -/
theorem LowerBound_exactly_one_eq_counterexample :
    (∃ key,
      ConstructLowerBoundTuple sampleOps
        ⟨[VALUE_TYPE_INTEGER, VALUE_TYPE_VARCHAR], [Value.integer 0, Value.varchar "x"], rfl⟩
        [Value.integer 100, Value.varchar "b", Value.varchar "b"] [0, 1, 1]
        [EXPRESSION_TYPE_COMPARE_EQUAL, EXPRESSION_TYPE_COMPARE_GREATERTHANOREQUALTO,
          EXPRESSION_TYPE_COMPARE_EQUAL] = .ok (key, false)) ∧
    eqCount [(⟨0, EXPRESSION_TYPE_COMPARE_EQUAL, Value.integer 100⟩ : Predicate Value),
      ⟨1, EXPRESSION_TYPE_COMPARE_GREATERTHANOREQUALTO, Value.varchar "b"⟩,
      ⟨1, EXPRESSION_TYPE_COMPARE_EQUAL, Value.varchar "b"⟩] 0 = 1 ∧
    eqCount [(⟨0, EXPRESSION_TYPE_COMPARE_EQUAL, Value.integer 100⟩ : Predicate Value),
      ⟨1, EXPRESSION_TYPE_COMPARE_GREATERTHANOREQUALTO, Value.varchar "b"⟩,
      ⟨1, EXPRESSION_TYPE_COMPARE_EQUAL, Value.varchar "b"⟩] 1 = 1 :=
  ⟨⟨_, rfl⟩, rfl, rfl⟩

/-- C7 (amended): on a predicate list that lists no key column twice and only
columns of the key schema, `Index::ConstructLowerBoundTuple` returns true iff
the list contains exactly one `EQ` predicate for each key column. -/
theorem LowerBound_exactly_one_eq (ops : ValueOps V) (index_key : Tuple V)
    (preds : List (Predicate V))
    (hnd : (keyColumnIds preds).Nodup)
    (hin : ∀ p ∈ preds, p.column_id < index_key.schema.length) :
    ∃ key flag,
      ConstructLowerBoundTuple ops index_key (predValues preds) (keyColumnIds preds)
        (exprTypes preds) = .ok (key, flag) ∧
      (flag = true ↔ ∀ c, c < index_key.schema.length → eqCount preds c = 1) := by
  obtain ⟨key, hres, _, _⟩ := lowerBoundPreds_spec ops preds index_key
  have hlen : (keyColumnIds preds).length = preds.length := by simp [keyColumnIds]
  refine ⟨key, _, hres, ?_⟩
  rw [Bool.and_eq_true, decide_eq_true_eq, all_columnFlag_iff]
  constructor
  · rintro ⟨h1, h2⟩ c hc
    have hmem : c ∈ keyColumnIds preds :=
      nodup_all_mem_of_length (keyColumnIds preds) index_key.schema.length hnd
        (by
          intro d hd
          simp only [keyColumnIds, List.mem_map] at hd
          obtain ⟨p, hp, rfl⟩ := hd
          exact hin p hp)
        (by rw [hlen]; exact h1) c hc
    simp only [keyColumnIds, List.mem_map] at hmem
    obtain ⟨q, hq, hqc⟩ := hmem
    obtain ⟨p, hp⟩ := firstPredicate_isSome preds c q hq hqc
    obtain ⟨hpm, hpc⟩ := firstPredicate_mem preds c p hp
    have hpos := eqCount_pos preds c p hpm hpc (h2 c hc p hp)
    have hle := eqCount_le_one preds c hnd
    omega
  · intro h
    have hex : ∀ c, c < index_key.schema.length →
        ∃ p ∈ preds, p.column_id = c ∧ p.expr_type = EXPRESSION_TYPE_COMPARE_EQUAL := by
      intro c hc
      exact eqCount_pos_mem preds c (by rw [h c hc]; exact Nat.one_pos)
    constructor
    · rw [← hlen]
      apply length_ge_of_all_mem
      intro c hc
      obtain ⟨p, hp, hpc, _⟩ := hex c hc
      simp only [keyColumnIds, List.mem_map]
      exact ⟨p, hp, hpc⟩
    · intro c hc p hp
      obtain ⟨q, hq, hqc, hqe⟩ := hex c hc
      obtain ⟨hpm, hpc⟩ := firstPredicate_mem preds c p hp
      have : p = q := List.inj_on_of_nodup_map hnd hpm hq (hpc.trans hqc.symm)
      rw [this]
      exact hqe

/-- C7 (amended), at a concrete input: the list `(1, EQ, "b"), (0, EQ, 100)` on
the two-column key schema. -/
theorem LowerBound_exactly_one_eq_witness :
    ∃ key flag,
      ConstructLowerBoundTuple sampleOps
        ⟨[VALUE_TYPE_INTEGER, VALUE_TYPE_VARCHAR], [Value.integer 0, Value.varchar "x"], rfl⟩
        [Value.varchar "b", Value.integer 100] [1, 0]
        [EXPRESSION_TYPE_COMPARE_EQUAL, EXPRESSION_TYPE_COMPARE_EQUAL] = .ok (key, flag) ∧
      (flag = true ↔ ∀ c, c < 2 →
        eqCount [(⟨1, EXPRESSION_TYPE_COMPARE_EQUAL, Value.varchar "b"⟩ : Predicate Value),
          ⟨0, EXPRESSION_TYPE_COMPARE_EQUAL, Value.integer 100⟩] c = 1) :=
  LowerBound_exactly_one_eq sampleOps
    ⟨[VALUE_TYPE_INTEGER, VALUE_TYPE_VARCHAR], [Value.integer 0, Value.varchar "x"], rfl⟩
    [⟨1, EXPRESSION_TYPE_COMPARE_EQUAL, Value.varchar "b"⟩,
      ⟨0, EXPRESSION_TYPE_COMPARE_EQUAL, Value.integer 100⟩]
    (by decide) (by decide)

/-- C8: the key built by `Index::ConstructLowerBoundTuple` is a lower bound of
the predicate. For every index key `k` of the key schema on which
`Index::Compare` returns true for the same list, every column of the built key
compares `LT` or `EQ` with the column of `k`, it compares `EQ` on the columns
filled from an `EQ` predicate, and the built key is below `k` in the
lexicographic key order. `Value::Compare` is taken to return one of the four
outcomes of the spec with a symmetric `EQ`, and the type minimum to compare
`LT` or `EQ` with the columns of `k`. -/
theorem LowerBound_is_lower_bound (ops : ValueOps V) (index_key : Tuple V)
    (preds : List (Predicate V)) (k : List V)
    (hk : k.length = index_key.schema.length)
    (hmatch : Compare ops k (keyColumnIds preds) (exprTypes preds) (predValues preds)
      = .ok true)
    (hfour : ∀ a b n, ops.Compare a b ≠ CompareResult.other n)
    (hsymm : ∀ a b, ops.Compare a b = VALUE_COMPARE_EQUAL →
      ops.Compare b a = VALUE_COMPARE_EQUAL)
    (hmin : ∀ (c : Nat) (t : ValueType) (v : V), index_key.schema[c]? = some t →
      k[c]? = some v →
      ops.Compare (ops.GetMinValue t) v = VALUE_COMPARE_LESSTHAN ∨
      ops.Compare (ops.GetMinValue t) v = VALUE_COMPARE_EQUAL) :
    ∃ key flag,
      ConstructLowerBoundTuple ops index_key (predValues preds) (keyColumnIds preds)
        (exprTypes preds) = .ok (key, flag) ∧
      (∀ (c : Nat) (v : V), k[c]? = some v →
        ∃ w, key.data[c]? = some w ∧
          (ops.Compare w v = VALUE_COMPARE_LESSTHAN ∨ ops.Compare w v = VALUE_COMPARE_EQUAL)) ∧
      (∀ (c : Nat) (p : Predicate V) (v : V), firstPredicate preds c = some p →
        p.expr_type = EXPRESSION_TYPE_COMPARE_EQUAL → k[c]? = some v →
        key.data[c]? = some p.value ∧ ops.Compare p.value v = VALUE_COMPARE_EQUAL) ∧
      keyLessEq ops key.data k = true := by
  obtain ⟨key, hres, hschema, hdata⟩ := lowerBoundPreds_spec ops preds index_key
  have hEQ : ∀ (c : Nat) (p : Predicate V) (v : V), firstPredicate preds c = some p →
      p.expr_type = EXPRESSION_TYPE_COMPARE_EQUAL → k[c]? = some v →
      key.data[c]? = some p.value ∧ ops.Compare p.value v = VALUE_COMPARE_EQUAL := by
    intro c p v hp he hv
    obtain ⟨hpm, hpc⟩ := firstPredicate_mem preds c p hp
    have hc : c < index_key.schema.length := by
      rw [← hk]; exact (List.getElem?_eq_some_iff.mp hv).1
    constructor
    · rw [hdata c index_key.schema[c] (by simp [hc])]
      simp [columnValue, hp, he]
    · apply hsymm
      exact matched_first_eq ops k preds p v hmatch hpm he (by rw [hpc]; exact hv) hfour
  have hcolumn : ∀ (c : Nat) (v : V), k[c]? = some v →
      ∃ w, key.data[c]? = some w ∧
        (ops.Compare w v = VALUE_COMPARE_LESSTHAN ∨ ops.Compare w v = VALUE_COMPARE_EQUAL) := by
    intro c v hv
    have hc : c < index_key.schema.length := by
      rw [← hk]; exact (List.getElem?_eq_some_iff.mp hv).1
    have ht : index_key.schema[c]? = some index_key.schema[c] := by simp [hc]
    cases hp : firstPredicate preds c with
    | none =>
      refine ⟨ops.GetMinValue index_key.schema[c], ?_, hmin c _ v ht hv⟩
      rw [hdata c _ ht]
      simp [columnValue, hp]
    | some p =>
      by_cases he : p.expr_type = EXPRESSION_TYPE_COMPARE_EQUAL
      · obtain ⟨h1, h2⟩ := hEQ c p v hp he hv
        exact ⟨p.value, h1, Or.inr h2⟩
      · refine ⟨ops.GetMinValue index_key.schema[c], ?_, hmin c _ v ht hv⟩
        rw [hdata c _ ht]
        simp [columnValue, hp, he]
  refine ⟨key, _, hres, hcolumn, hEQ, ?_⟩
  apply keyLessEq_of_pointwise
  · rw [key.wf, hschema, hk]
  · intro c x y hx hy
    obtain ⟨w, hw, hle⟩ := hcolumn c y hy
    rw [hx] at hw
    cases hw
    exact hle

/-- C8, at a concrete input: the list `(0, EQ, 100), (1, GT, 3)` and the key
`(100, 7)` that it matches. -/
theorem LowerBound_is_lower_bound_witness :
    ∃ key flag,
      ConstructLowerBoundTuple sampleOps
        ⟨[VALUE_TYPE_INTEGER, VALUE_TYPE_INTEGER], [Value.integer 0, Value.integer 0], rfl⟩
        [Value.integer 100, Value.integer 3] [0, 1]
        [EXPRESSION_TYPE_COMPARE_EQUAL, EXPRESSION_TYPE_COMPARE_GREATERTHAN]
        = .ok (key, flag) ∧
      keyLessEq sampleOps key.data [Value.integer 100, Value.integer 7] = true := by
  obtain ⟨key, flag, hres, _, _, hle⟩ := LowerBound_is_lower_bound sampleOps
    ⟨[VALUE_TYPE_INTEGER, VALUE_TYPE_INTEGER], [Value.integer 0, Value.integer 0], rfl⟩
    [⟨0, EXPRESSION_TYPE_COMPARE_EQUAL, Value.integer 100⟩,
      ⟨1, EXPRESSION_TYPE_COMPARE_GREATERTHAN, Value.integer 3⟩]
    [Value.integer 100, Value.integer 7] rfl rfl sampleOps_ne_other sampleOps_eq_symm
    (by
      intro c t v ht hv
      match c with
      | 0 =>
        simp only [List.getElem?_cons_zero, Option.some.injEq] at ht hv
        subst ht; subst hv
        exact Or.inl rfl
      | 1 =>
        simp only [List.getElem?_cons_succ, List.getElem?_cons_zero, Option.some.injEq] at ht hv
        subst ht; subst hv
        exact Or.inl rfl
      | c + 2 => simp at ht)
  exact ⟨key, flag, hres, hle⟩

/-- C9 (the code at the failing input): for the list `(0, EQ, 5), (0, GT, 7)`
on a one-column key schema `Index::ConstructLowerBoundTuple` returns true with
the key `(5)`, although `Index::Compare` rejects the key `(5)` for the same
list: the point lookup that the flag licenses returns a key the predicate does
not match. -/
theorem LowerBound_point_lookup_not_exact :
    (∃ key,
      ConstructLowerBoundTuple sampleOps ⟨[VALUE_TYPE_INTEGER], [Value.integer 0], rfl⟩
        [Value.integer 5, Value.integer 7] [0, 0]
        [EXPRESSION_TYPE_COMPARE_EQUAL, EXPRESSION_TYPE_COMPARE_GREATERTHAN]
        = .ok (key, true) ∧
      key.data = [Value.integer 5]) ∧
    Compare sampleOps [Value.integer 5] [0, 0]
      [EXPRESSION_TYPE_COMPARE_EQUAL, EXPRESSION_TYPE_COMPARE_GREATERTHAN]
      [Value.integer 5, Value.integer 7] = .ok false :=
  ⟨⟨_, rfl, rfl⟩, rfl⟩

/-- C10: when the first predicate of the list has an operator outside the
seven recognised ones and its key column compares `LT`, `EQ` or `GT` with the
right-hand value, `Index::Compare` throws `IndexException` ("Unsupported
expression type") and returns no boolean. -/
theorem Compare_unsupported_first (ops : ValueOps V) (index_key : List V)
    (p : Predicate V) (rest : List (Predicate V)) (lhs : V)
    (hop : p.expr_type.recognised = false)
    (hkey : index_key[p.column_id]? = some lhs)
    (hcmp : ops.Compare lhs p.value = VALUE_COMPARE_LESSTHAN ∨
      ops.Compare lhs p.value = VALUE_COMPARE_EQUAL ∨
      ops.Compare lhs p.value = VALUE_COMPARE_GREATERTHAN) :
    Compare ops index_key (keyColumnIds (p :: rest)) (exprTypes (p :: rest))
      (predValues (p :: rest)) = .error (.IndexException p.expr_type) := by
  have h := matchesPreds_cons ops index_key p rest
  simp only [matchesPreds] at h
  rw [h, hkey]
  cases he : p.expr_type <;> simp [he, ExpressionType.recognised] at hop
  rcases hcmp with h | h | h <;> simp [CompareDiff, CompareDispatch, h, he]

/-- C10, at a concrete input: the key `(5)` and a list whose first operator is
the enumerator 16, outside the seven recognised ones. -/
theorem Compare_unsupported_first_witness :
    Compare sampleOps [Value.integer 5] [0, 0]
      [ExpressionType.other 16, EXPRESSION_TYPE_COMPARE_EQUAL]
      [Value.integer 7, Value.integer 5]
      = .error (.IndexException (ExpressionType.other 16)) :=
  Compare_unsupported_first sampleOps [Value.integer 5] ⟨0, ExpressionType.other 16, Value.integer 7⟩
    [⟨0, EXPRESSION_TYPE_COMPARE_EQUAL, Value.integer 5⟩] (Value.integer 5) rfl rfl (Or.inl rfl)

/-- C11 (as stated, refuted): on the key `(5)` the list
`(0, EQ, 7), (0, <enumerator 16>, 5)` contains an unrecognised operator, yet
`Index::Compare` returns false without an error: the first predicate falsifies
and the loop returns before it reads the second. -/
theorem Compare_unsupported_any_position_counterexample :
    Compare sampleOps [Value.integer 5] [0, 0]
      [EXPRESSION_TYPE_COMPARE_EQUAL, ExpressionType.other 16]
      [Value.integer 7, Value.integer 5] = .ok false :=
  rfl

/-- C11 (amended): when every predicate before the first unrecognised one is
satisfied by the key and the column of the unrecognised predicate compares
`LT`, `EQ` or `GT` with its right-hand value, `Index::Compare` throws
`IndexException`, whatever the predicates after it are. -/
theorem Compare_unsupported_reached (ops : ValueOps V) (index_key : List V)
    (before : List (Predicate V)) (p : Predicate V) (after : List (Predicate V)) (lhs : V)
    (hbefore : Compare ops index_key (keyColumnIds before) (exprTypes before)
      (predValues before) = .ok true)
    (hop : p.expr_type.recognised = false)
    (hkey : index_key[p.column_id]? = some lhs)
    (hcmp : ops.Compare lhs p.value = VALUE_COMPARE_LESSTHAN ∨
      ops.Compare lhs p.value = VALUE_COMPARE_EQUAL ∨
      ops.Compare lhs p.value = VALUE_COMPARE_GREATERTHAN) :
    Compare ops index_key (keyColumnIds (before ++ p :: after))
      (exprTypes (before ++ p :: after)) (predValues (before ++ p :: after))
      = .error (.IndexException p.expr_type) := by
  have h := matchesPreds_append ops index_key before (p :: after)
  have hb : matchesPreds ops index_key before = .ok true := hbefore
  rw [hb] at h
  simp only at h
  rw [matchesPreds_unsupported ops index_key p after lhs hop hkey hcmp] at h
  exact h

/-- C11 (amended), at a concrete input: the key `(5)` satisfies `(0, EQ, 5)` and
then meets the enumerator 16. -/
theorem Compare_unsupported_reached_witness :
    Compare sampleOps [Value.integer 5] [0, 0, 0]
      [EXPRESSION_TYPE_COMPARE_EQUAL, ExpressionType.other 16, EXPRESSION_TYPE_COMPARE_EQUAL]
      [Value.integer 5, Value.integer 7, Value.integer 9]
      = .error (.IndexException (ExpressionType.other 16)) :=
  Compare_unsupported_reached sampleOps [Value.integer 5]
    [⟨0, EXPRESSION_TYPE_COMPARE_EQUAL, Value.integer 5⟩]
    ⟨0, ExpressionType.other 16, Value.integer 7⟩
    [⟨0, EXPRESSION_TYPE_COMPARE_EQUAL, Value.integer 9⟩] (Value.integer 5)
    rfl rfl rfl (Or.inl rfl)

/-- C13 (as stated, refuted): with one predicate and two extra trailing
values and operators the three vectors differ in length, yet `Index::Compare`
returns true: the extra entries are ignored and nothing is thrown. -/
theorem Compare_length_mismatch_counterexample :
    Compare sampleOps [Value.integer 5] [0]
      [EXPRESSION_TYPE_COMPARE_EQUAL, EXPRESSION_TYPE_COMPARE_EQUAL]
      [Value.integer 5, Value.integer 9, Value.integer 9] = .ok true ∧
    Compare sampleOps [Value.integer 5] [] [] [Value.integer 9] = .ok true :=
  ⟨rfl, rfl⟩

/-- C13 (amended): `Index::Compare` checks no lengths. It reads `expr_types`
and `values` at the positions of `key_column_ids` only, so its result is the
one for the two vectors cut to `key_column_ids.size()`, and entries appended
to the vectors of a predicate list do not change the result. -/
theorem Compare_ignores_trailing (ops : ValueOps V) (index_key : List V)
    (key_column_ids : List Nat) (expr_types : List ExpressionType) (values : List V) :
    Compare ops index_key key_column_ids expr_types values
      = Compare ops index_key key_column_ids (expr_types.take key_column_ids.length)
          (values.take key_column_ids.length) ∧
    ∀ (preds : List (Predicate V)) (more_types : List ExpressionType) (more_values : List V),
      Compare ops index_key (keyColumnIds preds) (exprTypes preds ++ more_types)
          (predValues preds ++ more_values)
        = Compare ops index_key (keyColumnIds preds) (exprTypes preds) (predValues preds) := by
  constructor
  · exact (CompareLoop_take ops index_key expr_types values key_column_ids 0
      key_column_ids.length (by omega)).symm
  · intro preds more_types more_values
    have h1 := CompareLoop_take ops index_key (exprTypes preds ++ more_types)
      (predValues preds ++ more_values) (keyColumnIds preds) 0 preds.length
      (by simp [keyColumnIds])
    have ht : (exprTypes preds ++ more_types).take preds.length = exprTypes preds := by
      simp [exprTypes]
    have hv : (predValues preds ++ more_values).take preds.length = predValues preds := by
      simp [predValues]
    rw [ht, hv] at h1
    exact h1.symm

/-- C14 (as stated, refuted): the key schema `{BIGINT}` has an integer type in
its one column, yet the constructor of `IndexMetadata` leaves `ints_only`
false. -/
theorem IndexMetadata_ints_only_counterexample :
    (∀ t ∈ [VALUE_TYPE_BIGINT], t.isIntegerType = true) ∧
    (IndexMetadata.IndexMetadata "test_index" 125 INDEX_TYPE_BWTREE
      INDEX_CONSTRAINT_TYPE_DEFAULT [VALUE_TYPE_BIGINT] [VALUE_TYPE_BIGINT] [0]
      false).ints_only = false :=
  ⟨by decide, rfl⟩

/-- C14 (amended): for every key schema, the empty one included, the
constructor of `IndexMetadata` leaves `ints_only` true iff every column of the
key schema has the type `VALUE_TYPE_INTEGER`, and false as soon as one column
has another type, an integer type of another width included. -/
theorem IndexMetadata_ints_only (index_name : String) (index_oid : Nat)
    (method_type : IndexType) (index_type : IndexConstraintType)
    (tuple_schema key_schema : List ValueType) (key_attrs : List Nat) (unique_keys : Bool) :
    ((IndexMetadata.IndexMetadata index_name index_oid method_type index_type tuple_schema
        key_schema key_attrs unique_keys).ints_only = true ↔
      ∀ t ∈ key_schema, t = VALUE_TYPE_INTEGER) ∧
    ((∃ t ∈ key_schema, t ≠ VALUE_TYPE_INTEGER) →
      (IndexMetadata.IndexMetadata index_name index_oid method_type index_type tuple_schema
        key_schema key_attrs unique_keys).ints_only = false) ∧
    (IndexMetadata.IndexMetadata index_name index_oid method_type index_type tuple_schema
      [] key_attrs unique_keys).ints_only = true := by
  have hiff := ints_only_fold key_schema true
  simp only [Bool.true_eq, true_and] at hiff
  refine ⟨hiff, ?_, rfl⟩
  rintro ⟨t, ht, hne⟩
  cases h : (IndexMetadata.IndexMetadata index_name index_oid method_type index_type
    tuple_schema key_schema key_attrs unique_keys).ints_only with
  | false => rfl
  | true => exact absurd (hiff.mp h t ht) hne

/-- C14, at a concrete input: the key schema `{INTEGER, VARCHAR}` of the test
has a column that is not `VALUE_TYPE_INTEGER`. -/
theorem IndexMetadata_ints_only_witness :
    (IndexMetadata.IndexMetadata "test_index" 125 INDEX_TYPE_BWTREE
      INDEX_CONSTRAINT_TYPE_DEFAULT
      [VALUE_TYPE_INTEGER, VALUE_TYPE_VARCHAR, VALUE_TYPE_DOUBLE, VALUE_TYPE_INTEGER]
      [VALUE_TYPE_INTEGER, VALUE_TYPE_VARCHAR] [0, 1] false).ints_only = false :=
  (IndexMetadata_ints_only "test_index" 125 INDEX_TYPE_BWTREE INDEX_CONSTRAINT_TYPE_DEFAULT
    [VALUE_TYPE_INTEGER, VALUE_TYPE_VARCHAR, VALUE_TYPE_DOUBLE, VALUE_TYPE_INTEGER]
    [VALUE_TYPE_INTEGER, VALUE_TYPE_VARCHAR] [0, 1] false).2.1
    ⟨VALUE_TYPE_VARCHAR, by decide, by decide⟩

/-- C15: after a successful `InsertEntry(k, i)`, `ScanKey(k)` appends a
collection that contains `i`; and on an index built by any sequence of calls
that never inserts the key `k`, `ScanKey(k)` appends nothing (the scan has no
failure). -/
theorem ScanKey_after_InsertEntry {K : Type} [DecidableEq K] (index : OrderedIndex K)
    (key : K) (item : ItemPointer) (out : List ItemPointer) :
    ((index.InsertEntry key item).2 = true →
      ∃ found, (index.InsertEntry key item).1.ScanKey key out = out ++ found ∧
        item ∈ found) ∧
    (∀ (method_type : IndexType) (unique_keys : Bool) (calls : List (IndexCall K)),
      (∀ c ∈ calls, c.insertsKey key = false) →
      ((⟨method_type, unique_keys, []⟩ : OrderedIndex K).run calls).ScanKey key out = out) := by
  constructor
  · intro h
    refine ⟨_, rfl, ?_⟩
    have hm : (key, item) ∈ (index.InsertEntry key item).1.entries := by
      rw [InsertEntry_success_entries index key item h]
      simp
    exact (scan_mem_iff _ key item).mpr hm
  · intro method_type unique_keys calls hcalls
    have hno := run_no_insert_entries calls ⟨method_type, unique_keys, []⟩ key hcalls
      (by simp)
    have hnil : ((⟨method_type, unique_keys, []⟩ : OrderedIndex K).run calls).entries.filter
        (fun e => decide (e.1 = key)) = [] := by
      rw [List.filter_eq_nil_iff]
      intro e he
      simpa using hno e he
    simp [OrderedIndex.ScanKey, hnil]

/-- C15, at a concrete input: the roundtrip of `BasicTest` and the scan of the
key `(1000, "f")` after the insert workload. -/
theorem ScanKey_after_InsertEntry_witness :
    (∃ found, ((BuildIndex INDEX_TYPE_BWTREE false).InsertEntry key0 item0).1.ScanKey key0 []
        = [] ++ found ∧ item0 ∈ found) ∧
    ((BuildIndex INDEX_TYPE_BWTREE false).run InsertTest).ScanKey keynonce [] = [] :=
  ⟨(ScanKey_after_InsertEntry (BuildIndex INDEX_TYPE_BWTREE false) key0 item0 []).1 rfl,
    (ScanKey_after_InsertEntry (BuildIndex INDEX_TYPE_BWTREE false) keynonce item0 []).2
      INDEX_TYPE_BWTREE false InsertTest (by decide)⟩

set_option maxRecDepth 20000 in
/-- C17: in a multi-map index, `n >= 1` inserts of the same `(k, i)` add `n`
occurrences of `i` to `ScanKey(k)`, exactly `n` when the index did not hold
`(k, i)`, and one `DeleteEntry(k, i)` afterwards returns true and reduces that
number by exactly 1. After the 9 inserts of the test workload `ScanAllKeys`
returns 9 items, and after one delete of `(key1, item1)` `ScanKey(key1)`
returns 4 items. -/
theorem multimap_cardinality {K : Type} [DecidableEq K] (index : OrderedIndex K) (key : K)
    (item : ItemPointer) (n : Nat) (hmulti : index.unique_keys = false) (hn : 1 ≤ n) :
    ((index.insertTimes key item n).ScanKey key []).count item
      = (index.ScanKey key []).count item + n ∧
    ((key, item) ∉ index.entries →
      ((index.insertTimes key item n).ScanKey key []).count item = n) ∧
    (((index.insertTimes key item n).DeleteEntry key item).1.ScanKey key []).count item + 1
      = ((index.insertTimes key item n).ScanKey key []).count item ∧
    ((index.insertTimes key item n).DeleteEntry key item).2 = true ∧
    (∀ method_type : IndexType,
      (((BuildIndex method_type false).run InsertTest).ScanAllKeys []).length = 9) ∧
    (∀ method_type : IndexType,
      ((((BuildIndex method_type false).run InsertTest).DeleteEntry key1
        item1).1.ScanKey key1 []).length = 4) := by
  obtain ⟨hent, _⟩ := insertTimes_entries index key item n hmulti
  have hcount : (index.insertTimes key item n).entries.count (key, item)
      = index.entries.count (key, item) + n := by
    rw [hent, List.count_append, List.count_replicate_self]
  refine ⟨?_, ?_, ?_, ?_, ?_, ?_⟩
  · simp only [OrderedIndex.ScanKey, List.nil_append, scan_count_eq]
    exact hcount
  · intro hnot
    simp only [OrderedIndex.ScanKey, List.nil_append, scan_count_eq]
    rw [hcount, List.count_eq_zero.mpr hnot]
    omega
  · simp only [OrderedIndex.ScanKey, OrderedIndex.DeleteEntry, List.nil_append, scan_count_eq]
    rw [List.count_erase_self, hcount]
    omega
  · simp only [OrderedIndex.DeleteEntry, decide_eq_true_eq]
    rw [← List.count_pos_iff, hcount]
    omega
  · intro method_type
    cases method_type <;> decide
  · intro method_type
    cases method_type <;> decide

/-- C17, at a concrete input: three inserts of `(key1, item1)` into the empty
multi-map index. -/
theorem multimap_cardinality_witness :
    (((BuildIndex INDEX_TYPE_BTREE false).insertTimes key1 item1 3).ScanKey key1 []).count item1
      = 3 :=
  (multimap_cardinality (BuildIndex INDEX_TYPE_BTREE false) key1 item1 3 rfl
    (by decide)).2.1 (by decide)

/-- C18: in a unique-variant index, after a successful `InsertEntry(k, i)` a
further `InsertEntry(k, j)` fails for every item `j` and leaves the index
unchanged, `ScanKey(k)` returns exactly the one item `i`, and
`DeleteEntry(k, j)` with `j != i` returns false and removes nothing. -/
theorem unique_index_second_insert {K : Type} [DecidableEq K] (index : OrderedIndex K)
    (key : K) (i j : ItemPointer) (hunique : index.unique_keys = true)
    (hinsert : (index.InsertEntry key i).2 = true) :
    (index.InsertEntry key i).1.InsertEntry key j = ((index.InsertEntry key i).1, false) ∧
    (index.InsertEntry key i).1.ScanKey key [] = [i] ∧
    (j ≠ i →
      (index.InsertEntry key i).1.DeleteEntry key j = ((index.InsertEntry key i).1, false)) := by
  have hfresh : index.entries.any (fun e => decide (e.1 = key)) = false := by
    cases h : index.entries.any (fun e => decide (e.1 = key)) with
    | false => rfl
    | true => simp [OrderedIndex.InsertEntry, hunique, h] at hinsert
  have hstate : (index.InsertEntry key i).1
      = ⟨index.method_type, index.unique_keys, index.entries ++ [(key, i)]⟩ := by
    simp [OrderedIndex.InsertEntry, hunique, hfresh]
  have hnone : ∀ e ∈ index.entries, e.1 ≠ key := by
    intro e he hk
    have : index.entries.any (fun e => decide (e.1 = key)) = true :=
      List.any_eq_true.mpr ⟨e, he, by simpa using hk⟩
    rw [hfresh] at this
    exact Bool.false_ne_true this
  have hfilter : index.entries.filter (fun e => decide (e.1 = key)) = [] := by
    rw [List.filter_eq_nil_iff]
    intro e he
    simpa using hnone e he
  rw [hstate]
  refine ⟨?_, ?_, ?_⟩
  · simp [OrderedIndex.InsertEntry, hunique]
  · simp [OrderedIndex.ScanKey, List.filter_append, hfilter]
  · intro hji
    have hnot : (key, j) ∉ index.entries ++ [(key, i)] := by
      intro hm
      rcases List.mem_append.mp hm with h1 | h1
      · exact hnone _ h1 rfl
      · simp only [List.mem_singleton] at h1
        exact hji (Prod.mk.inj h1).2
    simp only [OrderedIndex.DeleteEntry, List.erase_of_not_mem hnot, hnot, decide_False]

/-- C18, at a concrete input: `(key1, item1)` then `(key1, item2)` on the empty
unique-variant index. -/
theorem unique_index_second_insert_witness :
    ((BuildIndex INDEX_TYPE_BWTREE true).InsertEntry key1 item1).1.InsertEntry key1 item2
      = (((BuildIndex INDEX_TYPE_BWTREE true).InsertEntry key1 item1).1, false) :=
  (unique_index_second_insert (BuildIndex INDEX_TYPE_BWTREE true) key1 item1 item2 rfl rfl).1

/-- C20: the string that `Index::GetInfo` returns contains the type name of
the index, its name in parentheses, `" UNIQUE"` when the index has unique keys
and `"NON-UNIQUE"` when it has not, and the rendering of the key schema. -/
theorem Index_GetInfo_contains (metadata : IndexMetadata) (GetTypeName : String)
    (key_schema_info : String) :
    containsText (Index.GetInfo metadata GetTypeName key_schema_info) GetTypeName ∧
    containsText (Index.GetInfo metadata GetTypeName key_schema_info)
      ("(" ++ metadata.index_name ++ ")") ∧
    containsText (Index.GetInfo metadata GetTypeName key_schema_info)
      (if metadata.unique_keys = true then " UNIQUE" else "NON-UNIQUE") ∧
    containsText (Index.GetInfo metadata GetTypeName key_schema_info) key_schema_info := by
  refine ⟨?_, ?_, ?_, ?_⟩
  · exact ⟨"\t-----------------------------------------------------------\n" ++ "\tINDEX\n",
      "\t(" ++ metadata.index_name ++ ")" ++
        (if metadata.unique_keys = true then " UNIQUE " else " NON-UNIQUE") ++ "\n" ++
        "\tValue schema : " ++ key_schema_info ++
        "\t-----------------------------------------------------------\n",
      by simp only [Index.GetInfo, String.append_assoc]⟩
  · refine ⟨"\t-----------------------------------------------------------\n" ++ "\tINDEX\n" ++
        GetTypeName ++ "\t",
      (if metadata.unique_keys = true then " UNIQUE " else " NON-UNIQUE") ++ "\n" ++
        "\tValue schema : " ++ key_schema_info ++
        "\t-----------------------------------------------------------\n", ?_⟩
    have h : "\t(" = "\t" ++ "(" := by decide
    simp only [Index.GetInfo, String.append_assoc]
    rw [h, String.append_assoc]
  · cases hu : metadata.unique_keys
    · refine ⟨"\t-----------------------------------------------------------\n" ++
          "\tINDEX\n" ++ GetTypeName ++ "\t(" ++ metadata.index_name ++ ")" ++ " ",
        "\n" ++ "\tValue schema : " ++ key_schema_info ++
          "\t-----------------------------------------------------------\n", ?_⟩
      have h : " NON-UNIQUE" = " " ++ "NON-UNIQUE" := by decide
      simp only [Index.GetInfo, hu, String.append_assoc, Bool.false_eq_true, if_false]
      rw [h, String.append_assoc]
    · refine ⟨"\t-----------------------------------------------------------\n" ++
          "\tINDEX\n" ++ GetTypeName ++ "\t(" ++ metadata.index_name ++ ")",
        " " ++ "\n" ++ "\tValue schema : " ++ key_schema_info ++
          "\t-----------------------------------------------------------\n", ?_⟩
      have h : " UNIQUE " = " UNIQUE" ++ " " := by decide
      simp only [Index.GetInfo, hu, String.append_assoc, if_true]
      rw [h, String.append_assoc]
  · exact ⟨"\t-----------------------------------------------------------\n" ++ "\tINDEX\n" ++
        GetTypeName ++ "\t(" ++ metadata.index_name ++ ")" ++
        (if metadata.unique_keys = true then " UNIQUE " else " NON-UNIQUE") ++ "\n" ++
        "\tValue schema : ",
      "\t-----------------------------------------------------------\n",
      by simp only [Index.GetInfo, String.append_assoc]⟩

/-- C21: `DDLDatabase::CreateDatabase(oid)` returns true iff `oid` is not
`INVALID_OID` and the manager held no database with that oid; when it returns
true the manager holds a database with that oid afterwards, when it returns
false the manager is unchanged, and a second call with the same oid returns
false. -/
theorem CreateDatabase_result (INVALID_OID : Nat) (manager : Manager) (database_oid : Nat) :
    ((DDLDatabase.CreateDatabase INVALID_OID manager database_oid).2 = true ↔
      database_oid ≠ INVALID_OID ∧ manager.GetDatabaseWithOid database_oid = none) ∧
    ((DDLDatabase.CreateDatabase INVALID_OID manager database_oid).2 = true →
      (DDLDatabase.CreateDatabase INVALID_OID manager database_oid).1.GetDatabaseWithOid
        database_oid ≠ none) ∧
    ((DDLDatabase.CreateDatabase INVALID_OID manager database_oid).2 = false →
      (DDLDatabase.CreateDatabase INVALID_OID manager database_oid).1 = manager) ∧
    (DDLDatabase.CreateDatabase INVALID_OID
      (DDLDatabase.CreateDatabase INVALID_OID manager database_oid).1 database_oid).2
      = false := by
  unfold DDLDatabase.CreateDatabase
  by_cases hinv : database_oid = INVALID_OID
  · simp [hinv]
  · cases hget : manager.GetDatabaseWithOid database_oid with
    | none =>
      have hadd := GetDatabaseWithOid_AddDatabase manager database_oid
      simp only [hinv, if_false, true_and, ne_eq, not_false_eq_true, and_self, true_implies,
        Bool.true_eq_false, false_implies]
      refine ⟨hadd, ?_⟩
      cases h2 : (manager.AddDatabase ⟨database_oid⟩).GetDatabaseWithOid database_oid with
      | none => exact absurd h2 hadd
      | some db => rfl
    | some db => simp [hinv, hget]

/-- C21, at a concrete input: the oid 7 on the empty manager, with
`INVALID_OID` the largest 32-bit value. -/
theorem CreateDatabase_result_witness :
    (DDLDatabase.CreateDatabase 4294967295 ⟨[]⟩ 7).1.GetDatabaseWithOid 7 ≠ none :=
  (CreateDatabase_result 4294967295 ⟨[]⟩ 7).2.1 rfl

/-- C22 (the code at the failing input): `DDLDatabase::DropDatabase` returns
true on every call; on a manager that holds no database with the oid nothing
is dropped and the result is true all the same. -/
theorem DropDatabase_always_true :
    (∀ (manager : Manager) (database_oid : Nat),
      (DDLDatabase.DropDatabase manager database_oid).2 = true) ∧
    (Manager.mk []).GetDatabaseWithOid 7 = none ∧
    DDLDatabase.DropDatabase ⟨[]⟩ 7 = (⟨[]⟩, true) :=
  ⟨fun _ _ => rfl, rfl, rfl⟩

/-- C23: `IncreaseNumberOfTuplesBy(n)` makes the tuple count the old count
plus `n`, `DecreaseNumberOfTuplesBy(n)` the old count minus `n` (in `size_t`
arithmetic, which is plain arithmetic when the result is a `size_t`), and
`SetNumberOfTuples(n)` makes it `n`; each of the three leaves `IsDirty()` true
and the lookup, insert, delete and update counters as they were. -/
theorem tuple_count_mutators (index : Index) (n : Nat)
    (hcount : index.number_of_tuples < SIZE_MODULUS) (hn : n < SIZE_MODULUS) :
    ((index.IncreaseNumberOfTuplesBy n).GetNumberOfTuples
        = (index.GetNumberOfTuples + n) % SIZE_MODULUS ∧
      (index.GetNumberOfTuples + n < SIZE_MODULUS →
        (index.IncreaseNumberOfTuplesBy n).GetNumberOfTuples = index.GetNumberOfTuples + n)) ∧
    (((index.DecreaseNumberOfTuplesBy n).GetNumberOfTuples : Int)
        = ((index.GetNumberOfTuples : Int) - (n : Int)) % (SIZE_MODULUS : Int) ∧
      (n ≤ index.GetNumberOfTuples →
        (index.DecreaseNumberOfTuplesBy n).GetNumberOfTuples = index.GetNumberOfTuples - n)) ∧
    (index.SetNumberOfTuples n).GetNumberOfTuples = n ∧
    ((index.IncreaseNumberOfTuplesBy n).IsDirty = true ∧
      (index.DecreaseNumberOfTuplesBy n).IsDirty = true ∧
      (index.SetNumberOfTuples n).IsDirty = true) ∧
    (∀ after ∈ [index.IncreaseNumberOfTuplesBy n, index.DecreaseNumberOfTuplesBy n,
        index.SetNumberOfTuples n],
      after.lookup_counter = index.lookup_counter ∧
      after.insert_counter = index.insert_counter ∧
      after.delete_counter = index.delete_counter ∧
      after.update_counter = index.update_counter) := by
  simp only [SIZE_MODULUS] at hcount hn
  refine ⟨⟨rfl, ?_⟩, ⟨?_, ?_⟩, ?_, ⟨rfl, rfl, rfl⟩, ?_⟩
  · intro h
    simp only [Index.IncreaseNumberOfTuplesBy, Index.GetNumberOfTuples, SIZE_MODULUS] at h ⊢
    omega
  · simp only [Index.DecreaseNumberOfTuplesBy, Index.GetNumberOfTuples, SIZE_MODULUS]
    push_cast
    omega
  · intro h
    simp only [Index.DecreaseNumberOfTuplesBy, Index.GetNumberOfTuples, SIZE_MODULUS] at h ⊢
    omega
  · simp only [Index.SetNumberOfTuples, Index.GetNumberOfTuples, SIZE_MODULUS]
    omega
  · intro after hafter
    simp only [List.mem_cons, List.mem_singleton, List.not_mem_nil, or_false] at hafter
    rcases hafter with h | h | h <;> subst h <;> exact ⟨rfl, rfl, rfl, rfl⟩

/-- C23, at a concrete input: the count 5 and the amount 3. -/
theorem tuple_count_mutators_witness :
    (Index.IncreaseNumberOfTuplesBy ⟨1, 2, 3, 4, 5, false⟩ 3).GetNumberOfTuples = 5 + 3 ∧
    (Index.DecreaseNumberOfTuplesBy ⟨1, 2, 3, 4, 5, false⟩ 3).GetNumberOfTuples = 5 - 3 :=
  have h := tuple_count_mutators ⟨1, 2, 3, 4, 5, false⟩ 3 (by decide) (by decide)
  ⟨h.1.2 (by decide), h.2.1.2 (by decide)⟩

/-- C24: with fewer values than the key schema has columns,
`Index::ConstructLowerBoundTuple` returns false, also when every listed
operator is `EQ`; the single predicate `(0, EQ, 100)` on the schema
`{INTEGER, VARCHAR}` yields the key `(100, min_value(VARCHAR))` and false. -/
theorem LowerBound_short_list_false (ops : ValueOps V) (index_key : Tuple V)
    (preds : List (Predicate V))
    (hshort : (predValues preds).length < index_key.schema.length) :
    (∃ key,
      ConstructLowerBoundTuple ops index_key (predValues preds) (keyColumnIds preds)
        (exprTypes preds) = .ok (key, false)) ∧
    (∀ initial : List Value, ∀ hwf : initial.length = 2,
      ∃ key,
        ConstructLowerBoundTuple sampleOps
          ⟨[VALUE_TYPE_INTEGER, VALUE_TYPE_VARCHAR], initial, hwf⟩
          [Value.integer 100] [0] [EXPRESSION_TYPE_COMPARE_EQUAL] = .ok (key, false) ∧
        key.data = [Value.integer 100, Value.GetMinValue VALUE_TYPE_VARCHAR]) := by
  constructor
  · obtain ⟨key, hres, _, _⟩ := lowerBoundPreds_spec ops preds index_key
    have hl : (predValues preds).length = preds.length := by simp [predValues]
    have hnot : ¬ index_key.schema.length ≤ preds.length := by omega
    refine ⟨key, ?_⟩
    have hr : lowerBoundPreds ops index_key preds = .ok (key, false) := by
      rw [hres]
      simp [hnot]
    exact hr
  · intro initial hwf
    match initial, hwf with
    | [a, b], _ => exact ⟨_, rfl, rfl⟩

/-- C24, at a concrete input: the list `(0, EQ, 100)` on the two-column key
schema. -/
theorem LowerBound_short_list_false_witness :
    ∃ key,
      ConstructLowerBoundTuple sampleOps
        ⟨[VALUE_TYPE_INTEGER, VALUE_TYPE_VARCHAR], [Value.integer 0, Value.varchar "x"], rfl⟩
        [Value.integer 100] [0] [EXPRESSION_TYPE_COMPARE_EQUAL] = .ok (key, false) :=
  (LowerBound_short_list_false sampleOps
    ⟨[VALUE_TYPE_INTEGER, VALUE_TYPE_VARCHAR], [Value.integer 0, Value.varchar "x"], rfl⟩
    [⟨0, EXPRESSION_TYPE_COMPARE_EQUAL, Value.integer 100⟩] (by decide)).1

/-- C25: after a sequence of calls of `IncreaseNumberOfTuplesBy`,
`DecreaseNumberOfTuplesBy`, `SetNumberOfTuples` and `ResetDirty`, `IsDirty()`
is true iff the last call was not `ResetDirty`, whatever the amounts; and
`ResetDirty` changes neither the tuple count nor an operation counter. -/
theorem dirty_after_calls (index : Index) (calls : List CountCall) (last : CountCall) :
    ((index.countCalls (calls ++ [last])).IsDirty = true ↔ last ≠ CountCall.ResetDirty) ∧
    index.ResetDirty.GetNumberOfTuples = index.GetNumberOfTuples ∧
    index.ResetDirty.lookup_counter = index.lookup_counter ∧
    index.ResetDirty.insert_counter = index.insert_counter ∧
    index.ResetDirty.delete_counter = index.delete_counter ∧
    index.ResetDirty.update_counter = index.update_counter := by
  refine ⟨?_, rfl, rfl, rfl, rfl, rfl⟩
  rw [countCalls_append]
  cases last <;> simp [Index.countCall, Index.IsDirty, Index.IncreaseNumberOfTuplesBy,
    Index.DecreaseNumberOfTuplesBy, Index.SetNumberOfTuples, Index.ResetDirty]

/-- C26: `Index::ConstructLowerBoundTuple` decides a key column `c` from its
first listing only. When the list is `before ++ p :: after` with no predicate
on `c` in `before` and `p` on `c`, the column is `p`'s value if `p`'s operator
is `EQ` and the type minimum otherwise, whatever `after` holds; for
`(c, GE, a), (c, EQ, b)` it is the minimum and for `(c, EQ, a), (c, EQ, b)` it
is `a`. -/
theorem LowerBound_first_listing (ops : ValueOps V) (index_key : Tuple V)
    (before : List (Predicate V)) (p : Predicate V) (after : List (Predicate V))
    (c : Nat) (t : ValueType)
    (hc : index_key.schema[c]? = some t)
    (hbefore : ∀ q ∈ before, q.column_id ≠ c) (hp : p.column_id = c) :
    (∃ key flag,
      ConstructLowerBoundTuple ops index_key (predValues (before ++ p :: after))
        (keyColumnIds (before ++ p :: after)) (exprTypes (before ++ p :: after))
        = .ok (key, flag) ∧
      key.data[c]? = some (if p.expr_type = EXPRESSION_TYPE_COMPARE_EQUAL then p.value
        else ops.GetMinValue t)) ∧
    (∀ a b : V, ∃ key flag,
      ConstructLowerBoundTuple ops index_key [a, b] [c, c]
        [EXPRESSION_TYPE_COMPARE_GREATERTHANOREQUALTO, EXPRESSION_TYPE_COMPARE_EQUAL]
        = .ok (key, flag) ∧ key.data[c]? = some (ops.GetMinValue t)) ∧
    (∀ a b : V, ∃ key flag,
      ConstructLowerBoundTuple ops index_key [a, b] [c, c]
        [EXPRESSION_TYPE_COMPARE_EQUAL, EXPRESSION_TYPE_COMPARE_EQUAL]
        = .ok (key, flag) ∧ key.data[c]? = some a) := by
  have main : ∀ (l : List (Predicate V)) (q : Predicate V),
      firstPredicate l c = some q →
      ∃ key flag, lowerBoundPreds ops index_key l = .ok (key, flag) ∧
        key.data[c]? = some (if q.expr_type = EXPRESSION_TYPE_COMPARE_EQUAL then q.value
          else ops.GetMinValue t) := by
    intro l q hq
    obtain ⟨key, hres, _, hdata⟩ := lowerBoundPreds_spec ops l index_key
    refine ⟨key, _, hres, ?_⟩
    rw [hdata c t hc]
    simp [columnValue, hq]
  refine ⟨main _ p (firstPredicate_append_cons before p after c hbefore hp), ?_, ?_⟩
  · intro a b
    have h := main [⟨c, EXPRESSION_TYPE_COMPARE_GREATERTHANOREQUALTO, a⟩,
      ⟨c, EXPRESSION_TYPE_COMPARE_EQUAL, b⟩] ⟨c, EXPRESSION_TYPE_COMPARE_GREATERTHANOREQUALTO, a⟩
      (by simp [firstPredicate])
    simpa [lowerBoundPreds, predValues, keyColumnIds, exprTypes] using h
  · intro a b
    have h := main [⟨c, EXPRESSION_TYPE_COMPARE_EQUAL, a⟩,
      ⟨c, EXPRESSION_TYPE_COMPARE_EQUAL, b⟩] ⟨c, EXPRESSION_TYPE_COMPARE_EQUAL, a⟩
      (by simp [firstPredicate])
    simpa [lowerBoundPreds, predValues, keyColumnIds, exprTypes] using h

/-- C26, at a concrete input: the list `(0, LT, 9), (0, GE, 3), (0, EQ, 5)` on
a one-column key schema. -/
theorem LowerBound_first_listing_witness :
    ∃ key flag,
      ConstructLowerBoundTuple sampleOps ⟨[VALUE_TYPE_INTEGER], [Value.integer 0], rfl⟩
        [Value.integer 9, Value.integer 3, Value.integer 5] [0, 0, 0]
        [EXPRESSION_TYPE_COMPARE_LESSTHAN, EXPRESSION_TYPE_COMPARE_GREATERTHANOREQUALTO,
          EXPRESSION_TYPE_COMPARE_EQUAL] = .ok (key, flag) ∧
      key.data[0]? = some (Value.GetMinValue VALUE_TYPE_INTEGER) :=
  (LowerBound_first_listing sampleOps ⟨[VALUE_TYPE_INTEGER], [Value.integer 0], rfl⟩ []
    ⟨0, EXPRESSION_TYPE_COMPARE_LESSTHAN, Value.integer 9⟩
    [⟨0, EXPRESSION_TYPE_COMPARE_GREATERTHANOREQUALTO, Value.integer 3⟩,
      ⟨0, EXPRESSION_TYPE_COMPARE_EQUAL, Value.integer 5⟩] 0 VALUE_TYPE_INTEGER rfl
    (by simp) rfl).1

/-- C27: the flag returned by `Index::ConstructLowerBoundTuple` is true iff
`values.size() >= column_count` and no key column has a non-`EQ` operator at
its first listing; a key column that is not listed does not make it false:
`(0, EQ, a), (0, EQ, b)` on a two-column key schema returns true with column 1
at the type minimum. -/
theorem LowerBound_flag_first_listing (ops : ValueOps V) (index_key : Tuple V)
    (preds : List (Predicate V)) :
    (∃ key flag,
      ConstructLowerBoundTuple ops index_key (predValues preds) (keyColumnIds preds)
        (exprTypes preds) = .ok (key, flag) ∧
      (flag = true ↔
        index_key.schema.length ≤ (predValues preds).length ∧
        ∀ c, c < index_key.schema.length → ∀ p, firstPredicate preds c = some p →
          p.expr_type = EXPRESSION_TYPE_COMPARE_EQUAL)) ∧
    (∀ (t0 t1 : ValueType) (initial : List V) (hwf : initial.length = 2) (a b : V),
      ∃ key,
        ConstructLowerBoundTuple ops ⟨[t0, t1], initial, hwf⟩ [a, b] [0, 0]
          [EXPRESSION_TYPE_COMPARE_EQUAL, EXPRESSION_TYPE_COMPARE_EQUAL] = .ok (key, true) ∧
        key.data = [a, ops.GetMinValue t1]) := by
  constructor
  · obtain ⟨key, hres, _, _⟩ := lowerBoundPreds_spec ops preds index_key
    have hl : (predValues preds).length = preds.length := by simp [predValues]
    refine ⟨key, _, hres, ?_⟩
    rw [Bool.and_eq_true, decide_eq_true_eq, all_columnFlag_iff, hl]
  · intro t0 t1 initial hwf a b
    match initial, hwf with
    | [x, y], _ => exact ⟨_, rfl, rfl⟩

/-- C27, at a concrete input: the list `(0, EQ, 5), (0, EQ, 9)` on the key
schema `{INTEGER, VARCHAR}`. -/
theorem LowerBound_flag_first_listing_witness :
    ∃ key,
      ConstructLowerBoundTuple sampleOps
        ⟨[VALUE_TYPE_INTEGER, VALUE_TYPE_VARCHAR], [Value.integer 0, Value.varchar "x"], rfl⟩
        [Value.integer 5, Value.integer 9] [0, 0]
        [EXPRESSION_TYPE_COMPARE_EQUAL, EXPRESSION_TYPE_COMPARE_EQUAL] = .ok (key, true) ∧
      key.data = [Value.integer 5, Value.varchar ""] :=
  (LowerBound_flag_first_listing sampleOps
    ⟨[VALUE_TYPE_INTEGER, VALUE_TYPE_VARCHAR], [Value.integer 0, Value.varchar "x"], rfl⟩
    []).2 VALUE_TYPE_INTEGER VALUE_TYPE_VARCHAR [Value.integer 0, Value.varchar "x"] rfl
    (Value.integer 5) (Value.integer 9)

/-- C28: on a predicate list whose operators are all recognised (and whose
column ids lie inside the key), listing the predicates in another order, the
same permutation applied to the three vectors, does not change the result of
`Index::Compare`. -/
theorem Compare_permutation (ops : ValueOps V) (index_key : List V)
    (preds permuted : List (Predicate V))
    (hperm : preds.Perm permuted)
    (hrec : ∀ p ∈ preds, p.expr_type.recognised = true)
    (hcol : ∀ p ∈ preds, p.column_id < index_key.length) :
    Compare ops index_key (keyColumnIds permuted) (exprTypes permuted) (predValues permuted)
      = Compare ops index_key (keyColumnIds preds) (exprTypes preds) (predValues preds) := by
  obtain ⟨b, hb⟩ := matchesPreds_total ops index_key preds hrec hcol
  obtain ⟨b2, hb2⟩ := matchesPreds_total ops index_key permuted
    (fun p hp => hrec p (hperm.mem_iff.mpr hp)) (fun p hp => hcol p (hperm.mem_iff.mpr hp))
  have h1 := matchesPreds_true_iff ops index_key preds
  have h2 := matchesPreds_true_iff ops index_key permuted
  have hiff : matchesPreds ops index_key permuted = .ok true ↔
      matchesPreds ops index_key preds = .ok true := by
    rw [h1, h2]
    constructor
    · intro h p hp
      exact h p (hperm.mem_iff.mp hp)
    · intro h p hp
      exact h p (hperm.mem_iff.mpr hp)
  show matchesPreds ops index_key permuted = matchesPreds ops index_key preds
  rw [hb, hb2] at hiff ⊢
  cases b <;> cases b2 <;> simp at hiff ⊢

/-- C28, at a concrete input: the list `(0, GE, 100), (1, LT, 7)` and its
reverse on the key `(100, 3)`. -/
theorem Compare_permutation_witness :
    Compare sampleOps [Value.integer 100, Value.integer 3] [1, 0]
        [EXPRESSION_TYPE_COMPARE_LESSTHAN, EXPRESSION_TYPE_COMPARE_GREATERTHANOREQUALTO]
        [Value.integer 7, Value.integer 100]
      = Compare sampleOps [Value.integer 100, Value.integer 3] [0, 1]
        [EXPRESSION_TYPE_COMPARE_GREATERTHANOREQUALTO, EXPRESSION_TYPE_COMPARE_LESSTHAN]
        [Value.integer 100, Value.integer 7] :=
  Compare_permutation sampleOps [Value.integer 100, Value.integer 3]
    [⟨0, EXPRESSION_TYPE_COMPARE_GREATERTHANOREQUALTO, Value.integer 100⟩,
      ⟨1, EXPRESSION_TYPE_COMPARE_LESSTHAN, Value.integer 7⟩]
    [⟨1, EXPRESSION_TYPE_COMPARE_LESSTHAN, Value.integer 7⟩,
      ⟨0, EXPRESSION_TYPE_COMPARE_GREATERTHANOREQUALTO, Value.integer 100⟩]
    (List.Perm.swap _ _ _) (by decide) (by decide)

/-- C29: when the three vectors have one length and every column id is below
the column count of the key, `Index::Compare` reads nothing out of range (it
returns a boolean or throws `IndexException`), and
`Index::ConstructLowerBoundTuple` reads nothing out of range and writes the
columns `0, 1, ..., column_count - 1` of the key in this order, each column
exactly once. -/
theorem no_read_out_of_range (ops : ValueOps V) (index_key : Tuple V)
    (preds : List (Predicate V))
    (hcol : ∀ p ∈ preds, p.column_id < index_key.schema.length) :
    Compare ops index_key.data (keyColumnIds preds) (exprTypes preds) (predValues preds)
      ≠ .error .OutOfRange ∧
    (∃ key flag,
      ConstructLowerBoundTuple ops index_key (predValues preds) (keyColumnIds preds)
        (exprTypes preds) = .ok (key, flag) ∧
      ConstructLowerBoundTupleLogged ops index_key (predValues preds) (keyColumnIds preds)
        (exprTypes preds) = .ok ((key, List.range index_key.schema.length), flag)) ∧
    (∀ c, c < index_key.schema.length →
      (List.range index_key.schema.length).count c = 1) := by
  refine ⟨?_, ?_, ?_⟩
  · exact matchesPreds_not_OutOfRange ops index_key.data preds
      (fun p hp => by rw [index_key.wf]; exact hcol p hp)
  · obtain ⟨key, hfold, _, _, _⟩ :=
      lowerBound_fold ops preds index_key index_key.schema.length (le_refl _)
    have hlog := lowerBoundLogged_fold ops (predValues preds) (keyColumnIds preds)
      (exprTypes preds) index_key index_key.schema.length
    rw [hfold] at hlog
    refine ⟨key,
      (if index_key.schema.length > (predValues preds).length then false
        else (List.range index_key.schema.length).all (columnFlag preds)), ?_, ?_⟩
    · simp only [ConstructLowerBoundTuple, hfold]
    · simp only [ConstructLowerBoundTupleLogged, hlog]
  · intro c hc
    exact List.count_eq_one_of_mem (List.nodup_range _) (List.mem_range.mpr hc)

/-- C29, at a concrete input: the list `(0, EQ, 100), (1, GT, "a")` on the
two-column key `(100, "b")`. -/
theorem no_read_out_of_range_witness :
    Compare sampleOps [Value.integer 100, Value.varchar "b"] [0, 1]
      [EXPRESSION_TYPE_COMPARE_EQUAL, EXPRESSION_TYPE_COMPARE_GREATERTHAN]
      [Value.integer 100, Value.varchar "a"] ≠ .error .OutOfRange :=
  (no_read_out_of_range sampleOps
    ⟨[VALUE_TYPE_INTEGER, VALUE_TYPE_VARCHAR], [Value.integer 100, Value.varchar "b"], rfl⟩
    [⟨0, EXPRESSION_TYPE_COMPARE_EQUAL, Value.integer 100⟩,
      ⟨1, EXPRESSION_TYPE_COMPARE_GREATERTHAN, Value.varchar "a"⟩] (by decide)).1

/-- C30: `DecreaseNumberOfTuplesBy(a)` with `a` greater than the tuple count
does not clamp at zero: the count becomes `(old - a) mod 2^64`, which is
`old + 2^64 - a` and not zero; and `IncreaseNumberOfTuplesBy(a)` followed by
`DecreaseNumberOfTuplesBy(a)`, in either order, restores the count. -/
theorem tuple_count_wraps (index : Index) (a : Nat)
    (hcount : index.number_of_tuples < SIZE_MODULUS) (ha : a < SIZE_MODULUS) :
    (index.GetNumberOfTuples < a →
      ((index.DecreaseNumberOfTuplesBy a).GetNumberOfTuples : Int)
        = ((index.GetNumberOfTuples : Int) - (a : Int)) % (2 ^ 64 : Int) ∧
      (index.DecreaseNumberOfTuplesBy a).GetNumberOfTuples
        = index.GetNumberOfTuples + 2 ^ 64 - a ∧
      (index.DecreaseNumberOfTuplesBy a).GetNumberOfTuples ≠ 0) ∧
    ((index.IncreaseNumberOfTuplesBy a).DecreaseNumberOfTuplesBy a).GetNumberOfTuples
      = index.GetNumberOfTuples ∧
    ((index.DecreaseNumberOfTuplesBy a).IncreaseNumberOfTuplesBy a).GetNumberOfTuples
      = index.GetNumberOfTuples := by
  simp only [SIZE_MODULUS] at hcount ha
  have h64 : (2 : Nat) ^ 64 = 18446744073709551616 := by norm_num
  have h64i : (2 : Int) ^ 64 = 18446744073709551616 := by norm_num
  refine ⟨?_, ?_, ?_⟩
  · intro hlt
    simp only [Index.DecreaseNumberOfTuplesBy, Index.GetNumberOfTuples, SIZE_MODULUS, h64,
      h64i] at hlt ⊢
    refine ⟨?_, ?_, ?_⟩
    · push_cast
      omega
    · omega
    · omega
  · simp only [Index.DecreaseNumberOfTuplesBy, Index.IncreaseNumberOfTuplesBy,
      Index.GetNumberOfTuples, SIZE_MODULUS]
    omega
  · simp only [Index.DecreaseNumberOfTuplesBy, Index.IncreaseNumberOfTuplesBy,
      Index.GetNumberOfTuples, SIZE_MODULUS]
    omega

/-- C30, at a concrete input: the count 3 decreased by 5. -/
theorem tuple_count_wraps_witness :
    (Index.DecreaseNumberOfTuplesBy ⟨0, 0, 0, 0, 3, false⟩ 5).GetNumberOfTuples
      = 3 + 2 ^ 64 - 5 :=
  ((tuple_count_wraps ⟨0, 0, 0, 0, 3, false⟩ 5 (by decide) (by decide)).1 (by decide)).2.1

end Theorems

end peloton
